import Mathlib

/-!
Verification development for the nexus kernel/plugin/data-source core.

Each TypeScript class of the core is shallowly embedded as Lean data and
executable functions.  Asynchronous methods are modelled as sequential state
transformers (the source awaits every asynchronous call before continuing on
the paths modelled here), exceptions as `Except`, and JavaScript `Map`/`Set`
(which preserve insertion order) as association lists / duplicate-free lists.
-/

namespace Nexus

/-! ## EventBus (src/unnamed/part_000)

Handlers are identified by a numeric id (standing for JavaScript function
identity); the behaviour of handler `hid` is supplied by an environment
`env : Nat → σ → σ × Bool` mapping the current shared state to the state after
the handler body runs, together with a flag saying whether the body re-emits
the same event synchronously at its end.  `once` stores a wrapper entry:
running a wrapper runs the inner handler body and afterwards unsubscribes the
wrapper (this mirrors the source order: `handler(data); this.off(event,
wrappedHandler)`).  Emission is given fuel because a handler that re-emits its
own event can make the source recurse without bound. -/

inductive EntryKind
  | plain
  | onceWrap
deriving DecidableEq, Repr

structure Entry where
  kind : EntryKind
  hid : Nat
deriving DecidableEq, Repr

/-- The bus state: `events : Map<string, Set<EventHandler>>` as an
insertion-ordered association list of insertion-ordered duplicate-free
entry lists. -/
abbrev Bus := List (String × List Entry)

/-- `this.events.get(event)` -/
def busHandlers (b : Bus) (event : String) : Option (List Entry) :=
  (b.find? (fun p => p.1 == event)).map (fun p => p.2)

/-- `this.events.set(event, hs)`: replace in place, or append a new key. -/
def busSet (b : Bus) (event : String) (hs : List Entry) : Bus :=
  if b.any (fun p => p.1 == event) then
    b.map (fun p => if p.1 == event then (event, hs) else p)
  else
    b ++ [(event, hs)]

/-- `this.events.delete(event)` -/
def busDelete (b : Bus) (event : String) : Bus :=
  b.filter (fun p => p.1 != event)

/-- `Set.add`: inserts at the end unless already present. -/
def addEntry (hs : List Entry) (e : Entry) : List Entry :=
  if hs.contains e then hs else hs ++ [e]

/-- `on(event, handler)`: create the handler set if missing, then add.
The unsubscribe closure the source returns is `() => this.off(event,
handler)`, i.e. exactly `busOff b event (some e)` below. -/
def busOn (b : Bus) (event : String) (e : Entry) : Bus :=
  busSet b event (addEntry ((busHandlers b event).getD []) e)

/-- `off(event, handler?)`: with no handler, drop the whole event; with a
handler, delete it from the set and drop the event when the set empties. -/
def busOff (b : Bus) (event : String) (e : Option Entry) : Bus :=
  match e with
  | none => busDelete b event
  | some e =>
    match busHandlers b event with
    | none => b
    | some hs =>
      let hs' := hs.filter (fun x => x ≠ e)
      if hs'.isEmpty then busDelete b event else busSet b event hs'

/-- `once(event, handler)`: registers the wrapper for `handler`. -/
def busOnce (b : Bus) (event : String) (hid : Nat) : Bus :=
  busOn b event ⟨EntryKind.onceWrap, hid⟩

mutual

/-- `emit(event)`: snapshot the current handler list and run it.
Fuel bounds the depth of synchronous re-emission. -/
def emitGo (env : Nat → σ → σ × Bool) : Nat → String → Bus → σ → Bus × σ
  | 0, _, b, s => (b, s)
  | Nat.succ fuel, event, b, s =>
    runSnap env fuel event ((busHandlers b event).getD []) b s
termination_by fuel _ _ _ => (fuel, 0)

/-- Iterate the snapshot as `Set.forEach` does: an element removed from the
live set before being visited is skipped (checked via `contains`); a wrapper
entry runs the inner body, performs any nested synchronous emit, and then
unsubscribes itself. -/
def runSnap (env : Nat → σ → σ × Bool) :
    Nat → String → List Entry → Bus → σ → Bus × σ
  | _, _, [], b, s => (b, s)
  | fuel, event, e :: rest, b, s =>
    if ((busHandlers b event).getD []).contains e then
      let r1 := env e.hid s
      let r2 := if r1.2 then emitGo env fuel event b r1.1 else (b, r1.1)
      let b3 := if e.kind = EntryKind.onceWrap
        then busOff r2.1 event (some e) else r2.1
      runSnap env fuel event rest b3 r2.2
    else
      runSnap env fuel event rest b s
termination_by fuel _ l _ _ => (fuel, l.length + 1)

end

/-- `k` sequential emits of the same event, each a fresh `emit` call. -/
def emitSeq (env : Nat → σ → σ × Bool) (fuel : Nat) (event : String) :
    Nat → Bus → σ → Bus × σ
  | 0, b, s => (b, s)
  | Nat.succ k, b, s =>
    let r := emitGo env fuel event b s
    emitSeq env fuel event k r.1 r.2

/-- Behaviour of a handler that just counts its invocations. -/
def countEnv : Nat → Nat → Nat × Bool := fun _ n => (n + 1, false)

/-- Behaviour of a handler that counts its invocations and synchronously
re-emits the same event from inside its body on its first invocation only. -/
def reemitOnceEnv : Nat → Nat → Nat × Bool := fun _ n => (n + 1, n == 0)

/-! ## NexusKernel (src/packages/nexus-core/src/kernel/index.ts)

Plugin hooks receive a `PluginContext` and may perform arbitrary effects; we
model the effects a hook performs over an abstract shared state `σ` as a
state transformer that may throw (`σ → Except String σ`).  The kernel's
`plugins : Map<string, NexusPlugin>` preserves insertion order, so it is
modelled as the list of plugins in registration order.  Emitted kernel
events are collected in an output list of event names. -/

structure PluginHooks (σ : Type) where
  onLoad : Option (σ → Except String σ) := none
  onInit : Option (σ → Except String σ) := none
  onDestroy : Option (σ → Except String σ) := none
deriving Inhabited

structure NexusPlugin (σ : Type) where
  id : String
  hooks : PluginHooks σ
deriving Inhabited

structure KernelState (σ : Type) where
  plugins : List (NexusPlugin σ)
  initialized : Bool
deriving Inhabited

/-- A freshly constructed kernel: empty plugin map, `initialized = false`. -/
def kernelInit (σ : Type) : KernelState σ := ⟨[], false⟩

/-- `registerPlugin(plugin)`: throws on a duplicate id *before* any mutation;
otherwise the plugin is added to the map and only then is `onLoad` awaited,
so a throwing `onLoad` propagates with the plugin already registered.
Returns the new kernel state, the shared state, the events emitted
(`plugin:registered` on success) and the call outcome. -/
def registerPlugin (k : KernelState σ) (p : NexusPlugin σ) (s : σ) :
    KernelState σ × σ × List String × Except String Unit :=
  if k.plugins.any (fun q => q.id == p.id) then
    (k, s, [], Except.error ("Plugin " ++ p.id ++ " is already registered"))
  else
    let k' : KernelState σ := { k with plugins := k.plugins ++ [p] }
    match p.hooks.onLoad with
    | none => (k', s, ["plugin:registered"], Except.ok ())
    | some h =>
      match h s with
      | Except.ok s' => (k', s', ["plugin:registered"], Except.ok ())
      | Except.error e => (k', s, [], Except.error e)

/-- The `for (const plugin of this.plugins.values())` loop of `bootstrap`:
run each registered plugin's `onInit` hook in registration order, awaiting
each before the next; a throw aborts the remaining hooks. -/
def runInits (ps : List (NexusPlugin σ)) (s : σ) : σ × Except String Unit :=
  match ps with
  | [] => (s, Except.ok ())
  | p :: rest =>
    match p.hooks.onInit with
    | none => runInits rest s
    | some h =>
      match h s with
      | Except.ok s' => runInits rest s'
      | Except.error e => (s, Except.error e)

/-- `bootstrap()`: throws if already initialized (before touching any hook);
otherwise runs all `onInit` hooks sequentially in registration order, then
sets `initialized` and emits `kernel:ready`. -/
def bootstrap (k : KernelState σ) (s : σ) :
    KernelState σ × σ × List String × Except String Unit :=
  if k.initialized then
    (k, s, [], Except.error "Kernel is already initialized")
  else
    match runInits k.plugins s with
    | (s', Except.ok ()) =>
      ({ k with initialized := true }, s', ["kernel:ready"], Except.ok ())
    | (s', Except.error e) => (k, s', [], Except.error e)

/-- An `onInit` hook that appends the plugin id to a shared ordered log. -/
def logInitHook (id : String) : List String → Except String (List String) :=
  fun log => Except.ok (log ++ [id])

/-- A plugin whose only hook is the log-appending `onInit`. -/
def logPlugin (id : String) : NexusPlugin (List String) :=
  { id := id, hooks := { onInit := some (logInitHook id) } }

/-- A plugin whose `onLoad` hook throws. -/
def throwingLoadPlugin : NexusPlugin Unit :=
  { id := "p", hooks := { onLoad := some (fun _ => Except.error "boom") } }

/-! ## Data model (src/unnamed/part_002)

`FieldValue = unknown`; the values the modelled paths manipulate are mapped
to the inductive `Value`.  JavaScript numbers are modelled as `Int` (every
claim exercises integers only); `Date` instances and plain objects carry a
numeric tag standing for object identity, so that distinct objects compare
unequal as they do under `Set`'s SameValueZero. -/

inductive Value
  | vnull
  | vstr (s : String)
  | vnum (n : Int)
  | vbool (b : Bool)
  | vdate (tag : Nat)
  | vjson (tag : Nat)
deriving DecidableEq, Repr

/-- `Record = { [field: string]: FieldValue }`, keys in insertion order. -/
abbrev Row := List (String × Value)

/-- `row[field]`: `none` models JavaScript `undefined` (absent key). -/
def getField (r : Row) (f : String) : Option Value :=
  (r.find? (fun p => p.1 == f)).map (fun p => p.2)

/-- `val === null || val === undefined` -/
def isNullish : Option Value → Bool
  | none => true
  | some Value.vnull => true
  | some _ => false

inductive QueryOp
  | select
  | insert
  | update
  | delete
deriving DecidableEq, Repr

inductive WhereOp
  | eq | ne | gt | gte | lt | lte | like | inOp | notin | isnull | isnotnull
deriving DecidableEq, Repr

structure WhereClause where
  field : String
  operator : WhereOp
  value : Value
deriving DecidableEq, Repr

structure OrderClause where
  field : String
  ascending : Bool
deriving DecidableEq, Repr

/-- `Query` (part_002).  Optional members are `Option`s; `data` is modelled
as a single `Record` — the `Record[]` variant is never produced by the
base-class paths embedded here. -/
structure Query where
  table : String
  operation : QueryOp
  fields : Option (List String) := none
  whereC : Option (List WhereClause) := none
  orderBy : Option (List OrderClause) := none
  limit : Option Int := none
  offset : Option Int := none
  data : Option Row := none
deriving DecidableEq, Repr

structure QueryResult where
  data : List Row
  count : Nat
  affected : Option Nat := none
deriving DecidableEq, Repr

/-- The four data-layer error kinds relevant to the modelled paths. -/
inductive DErr
  | connection (msg : String)
  | queryErr (msg : String)
  | schemaErr (msg : String)
deriving DecidableEq, Repr

/-! ## BaseDataSource (src/packages/nexus-core/src/data/base.ts)

The abstract `query` primitive an adapter supplies is a parameter of the
state; every default CRUD method is embedded as a function returning its
outcome *and* the ordered list of queries it handed to the adapter
primitive, so that "no I/O was attempted" is the statement that this list
is empty. -/

structure DataSourceCapabilities where
  supportsBulkOperations : Bool
deriving DecidableEq, Repr

structure BaseDataSource where
  id : String
  connected : Bool
  capabilities : DataSourceCapabilities
  query : Query → Except DErr QueryResult

/-- `assertConnected()` -/
def assertConnected (ds : BaseDataSource) : Except DErr Unit :=
  if !ds.connected then
    Except.error (DErr.connection "Data source is not connected")
  else
    Except.ok ()

/-- `findOne(table, where)`: select with `limit = 1`, first row or null. -/
def findOne (ds : BaseDataSource) (table : String) (wh : List WhereClause) :
    Except DErr (Option Row) × List Query :=
  match assertConnected ds with
  | Except.error e => (Except.error e, [])
  | Except.ok () =>
    let q : Query :=
      { table := table, operation := QueryOp.select, whereC := some wh,
        limit := some 1 }
    match ds.query q with
    | Except.ok r => (Except.ok r.data.head?, [q])
    | Except.error e => (Except.error e, [q])

/-- `findMany(table, options)`: thin pass-through to `query`. -/
def findMany (ds : BaseDataSource) (table : String)
    (wh : Option (List WhereClause)) (ordBy : Option (List OrderClause))
    (lim offs : Option Int) : Except DErr QueryResult × List Query :=
  match assertConnected ds with
  | Except.error e => (Except.error e, [])
  | Except.ok () =>
    let q : Query :=
      { table := table, operation := QueryOp.select, whereC := wh,
        orderBy := ordBy, limit := lim, offset := offs }
    (ds.query q, [q])

/-- The insert query `create` issues. -/
def insertQuery (table : String) (d : Row) : Query :=
  { table := table, operation := QueryOp.insert, data := some d }

/-- `create(table, data)`: insert; a zero-row adapter result is a
`QueryError`. -/
def create (ds : BaseDataSource) (table : String) (d : Row) :
    Except DErr Row × List Query :=
  match assertConnected ds with
  | Except.error e => (Except.error e, [])
  | Except.ok () =>
    let q := insertQuery table d
    match ds.query q with
    | Except.ok r =>
      match r.data.head? with
      | none => (Except.error (DErr.queryErr "Insert operation did not return data"), [q])
      | some row => (Except.ok row, [q])
    | Except.error e => (Except.error e, [q])

/-- The update query `update` issues. -/
def updateQuery (table : String) (wh : List WhereClause) (d : Row) : Query :=
  { table := table, operation := QueryOp.update, whereC := some wh,
    data := some d }

/-- `update(table, where, data)`: returns the adapter's row list. -/
def update (ds : BaseDataSource) (table : String) (wh : List WhereClause)
    (d : Row) : Except DErr (List Row) × List Query :=
  match assertConnected ds with
  | Except.error e => (Except.error e, [])
  | Except.ok () =>
    let q := updateQuery table wh d
    match ds.query q with
    | Except.ok r => (Except.ok r.data, [q])
    | Except.error e => (Except.error e, [q])

/-- The delete query `delete` issues. -/
def deleteQuery (table : String) (wh : List WhereClause) : Query :=
  { table := table, operation := QueryOp.delete, whereC := some wh }

/-- `delete(table, where)` (named `deleteRows` here): affected count,
`result.affected || 0`. -/
def deleteRows (ds : BaseDataSource) (table : String) (wh : List WhereClause) :
    Except DErr Nat × List Query :=
  match assertConnected ds with
  | Except.error e => (Except.error e, [])
  | Except.ok () =>
    let q := deleteQuery table wh
    match ds.query q with
    | Except.ok r => (Except.ok (r.affected.getD 0), [q])
    | Except.error e => (Except.error e, [q])

/-- `Number(x)` restricted to the modelled value universe (non-numeric
strings, for which JavaScript yields `NaN`, are mapped to 0 together with
the falsy values that `|| 0` already replaces). -/
def jsNumber : Value → Int
  | Value.vnull => 0
  | Value.vstr s => (s.toInt?).getD 0
  | Value.vnum n => n
  | Value.vbool b => if b then 1 else 0
  | Value.vdate t => Int.ofNat t
  | Value.vjson _ => 0

/-- `count(table, where?)`: COUNT(*) select, `Number(result.data[0]?.count || 0)`. -/
def count (ds : BaseDataSource) (table : String)
    (wh : Option (List WhereClause)) : Except DErr Int × List Query :=
  match assertConnected ds with
  | Except.error e => (Except.error e, [])
  | Except.ok () =>
    let q : Query :=
      { table := table, operation := QueryOp.select,
        fields := some ["COUNT(*) as count"], whereC := wh }
    match ds.query q with
    | Except.ok r =>
      match r.data.head? with
      | none => (Except.ok 0, [q])
      | some row =>
        match getField row "count" with
        | none => (Except.ok 0, [q])
        | some v => (Except.ok (jsNumber v), [q])
    | Except.error e => (Except.error e, [q])

/-- `exists(table, where)` (named `existsRow` here): `count > 0`; the
connectedness assertion is the one performed by `count`. -/
def existsRow (ds : BaseDataSource) (table : String) (wh : List WhereClause) :
    Except DErr Bool × List Query :=
  match count ds table (some wh) with
  | (Except.ok n, qs) => (Except.ok (decide (0 < n)), qs)
  | (Except.error e, qs) => (Except.error e, qs)

/-- The `for (const item of data)` loop of the `bulkInsert` fallback:
sequential `create` per row, stopping at the first error. -/
def bulkInsertAux (ds : BaseDataSource) (table : String) :
    List Row → Except DErr (List Row) × List Query
  | [] => (Except.ok [], [])
  | r :: rs =>
    match create ds table r with
    | (Except.error e, qs) => (Except.error e, qs)
    | (Except.ok row, qs) =>
      match bulkInsertAux ds table rs with
      | (Except.ok rows, qs') => (Except.ok (row :: rows), qs ++ qs')
      | (Except.error e, qs') => (Except.error e, qs ++ qs')

/-- `bulkInsert(table, data)`: without bulk capability, fall back to
individual inserts aggregated in order; with it, the base class throws
(a subclass is expected to override). -/
def bulkInsert (ds : BaseDataSource) (table : String) (data : List Row) :
    Except DErr QueryResult × List Query :=
  if !ds.capabilities.supportsBulkOperations then
    match bulkInsertAux ds table data with
    | (Except.ok rows, qs) => (Except.ok { data := rows, count := rows.length }, qs)
    | (Except.error e, qs) => (Except.error e, qs)
  else
    (Except.error (DErr.queryErr "Bulk insert not implemented for this data source"), [])

structure BulkUpdateItem where
  whereC : List WhereClause
  data : Row
deriving DecidableEq, Repr

/-- The loop of the `bulkUpdate` fallback: sequential `update` per item,
results flattened in order, stopping at the first error. -/
def bulkUpdateAux (ds : BaseDataSource) (table : String) :
    List BulkUpdateItem → Except DErr (List Row) × List Query
  | [] => (Except.ok [], [])
  | it :: its =>
    match update ds table it.whereC it.data with
    | (Except.error e, qs) => (Except.error e, qs)
    | (Except.ok rows, qs) =>
      match bulkUpdateAux ds table its with
      | (Except.ok rows', qs') => (Except.ok (rows ++ rows'), qs ++ qs')
      | (Except.error e, qs') => (Except.error e, qs ++ qs')

/-- `bulkUpdate(table, data)` fallback / not-implemented behaviour. -/
def bulkUpdate (ds : BaseDataSource) (table : String)
    (items : List BulkUpdateItem) : Except DErr QueryResult × List Query :=
  if !ds.capabilities.supportsBulkOperations then
    match bulkUpdateAux ds table items with
    | (Except.ok rows, qs) => (Except.ok { data := rows, count := rows.length }, qs)
    | (Except.error e, qs) => (Except.error e, qs)
  else
    (Except.error (DErr.queryErr "Bulk update not implemented for this data source"), [])

/-- The loop of the `bulkDelete` fallback: sequential `delete` per where
list, summing affected counts, stopping at the first error. -/
def bulkDeleteAux (ds : BaseDataSource) (table : String) :
    List (List WhereClause) → Except DErr Nat × List Query
  | [] => (Except.ok 0, [])
  | wh :: whs =>
    match deleteRows ds table wh with
    | (Except.error e, qs) => (Except.error e, qs)
    | (Except.ok n, qs) =>
      match bulkDeleteAux ds table whs with
      | (Except.ok m, qs') => (Except.ok (n + m), qs ++ qs')
      | (Except.error e, qs') => (Except.error e, qs ++ qs')

/-- `bulkDelete(table, whereConditions)` fallback / not-implemented
behaviour. -/
def bulkDelete (ds : BaseDataSource) (table : String)
    (whs : List (List WhereClause)) : Except DErr Nat × List Query :=
  if !ds.capabilities.supportsBulkOperations then
    bulkDeleteAux ds table whs
  else
    (Except.error (DErr.queryErr "Bulk delete not implemented for this data source"), [])

/-- `/^[a-zA-Z][a-zA-Z0-9_]*$/.test(tableName)` -/
def matchesTablePattern (s : String) : Bool :=
  match s.toList with
  | [] => false
  | c :: cs => c.isAlpha && cs.all (fun d => d.isAlphanum || d == '_')

/-- `validateTableName(tableName)`: the `typeof` guard is unrepresentable
for a Lean `String`; the emptiness guard and the pattern are embedded. -/
def validateTableName (tableName : String) : Except DErr Unit :=
  if tableName == "" then
    Except.error (DErr.schemaErr "Table name must be a non-empty string")
  else if !matchesTablePattern tableName then
    Except.error (DErr.schemaErr "Table name contains invalid characters")
  else
    Except.ok ()

/-- `validateQuery(query)`.  The source's membership test of
`query.operation` in the four verbs cannot fail for a well-typed
`QueryOp` and is therefore not a branch here; an absent `data`/`where`
member is `none`, and `where: []` is `some []`, which like every
JavaScript array is truthy. -/
def validateQuery (q : Query) : Except DErr Unit :=
  if q.table == "" then
    Except.error (DErr.queryErr "Query must specify a table")
  else
    match validateTableName q.table with
    | Except.error e => Except.error e
    | Except.ok () =>
      if q.operation == QueryOp.insert && q.data.isNone then
        Except.error (DErr.queryErr "Insert operation requires data")
      else if q.operation == QueryOp.update && (q.data.isNone || q.whereC.isNone) then
        Except.error (DErr.queryErr "Update operation requires data and where conditions")
      else if q.operation == QueryOp.delete && q.whereC.isNone then
        Except.error (DErr.queryErr "Delete operation requires where conditions")
      else
        Except.ok ()

/-! ## DataSourceManager (src/unnamed/part_003)

The manager's `Map<string, DataSource>` is the insertion-ordered list
`sources`; `primaryDataSourceId` is `primary`.  Only the observable fields
of a managed `DataSource` are kept.  Event emission and logging are
observational side channels not consulted by any claim and are omitted.
Where the source tests a string for truthiness (`if (!this.primaryDataSourceId)`,
`if (firstId)`), the empty string counts as falsy. -/

structure ManagedSource where
  id : String
  name : String
  type : String
  connected : Bool
deriving DecidableEq, Repr

structure ManagerState where
  sources : List ManagedSource
  primary : Option String
deriving DecidableEq, Repr

/-- A freshly constructed manager. -/
def managerInit : ManagerState := ⟨[], none⟩

/-- `this.dataSources.has(id)` -/
def managerHas (m : ManagerState) (id : String) : Bool :=
  m.sources.any (fun ds => ds.id == id)

/-- `!this.primaryDataSourceId`: no primary id, or the empty string. -/
def noPrimary (m : ManagerState) : Bool :=
  match m.primary with
  | none => true
  | some p => p == ""

/-- `setPrimary(id)` -/
def setPrimary (m : ManagerState) (id : String) : ManagerState × Except String Unit :=
  if managerHas m id then
    ({ m with primary := some id }, Except.ok ())
  else
    (m, Except.error ("Data source " ++ id ++ " not found"))

/-- `register(dataSource)`: duplicate ids throw before any mutation; the
source becomes primary when no (truthy) primary id is set. -/
def register (m : ManagerState) (ds : ManagedSource) : ManagerState × Except String Unit :=
  if managerHas m ds.id then
    (m, Except.error ("Data source with id " ++ ds.id ++ " is already registered"))
  else
    let m1 : ManagerState := { m with sources := m.sources ++ [ds] }
    if noPrimary m1 then
      ((setPrimary m1 ds.id).1, Except.ok ())
    else
      (m1, Except.ok ())

/-- `unregister(id)`: remove the source (its own `disconnect` only touches
the removed object); when it was the primary, clear the primary and promote
`this.dataSources.keys().next().value` — but only when that first remaining
key is truthy. -/
def unregister (m : ManagerState) (id : String) : ManagerState × Except String Unit :=
  match m.sources.find? (fun ds => ds.id == id) with
  | none => (m, Except.error ("Data source " ++ id ++ " not found"))
  | some _ =>
    let remaining := m.sources.filter (fun ds => ds.id != id)
    let m1 : ManagerState := { m with sources := remaining }
    if m.primary == some id then
      let m2 : ManagerState := { m1 with primary := none }
      match remaining.head? with
      | none => (m2, Except.ok ())
      | some firstDs =>
        if firstDs.id == "" then (m2, Except.ok ())
        else ((setPrimary m2 firstDs.id).1, Except.ok ())
    else
      (m1, Except.ok ())

/-- `clear()`: disconnect everything, drop the registry, reset primary. -/
def managerClear (_m : ManagerState) : ManagerState := ⟨[], none⟩

/-- The manager states reachable through the registry-mutating interface. -/
inductive Reachable : ManagerState → Prop
  | init : Reachable managerInit
  | regStep (m : ManagerState) (ds : ManagedSource) :
      Reachable m → Reachable (register m ds).1
  | unregStep (m : ManagerState) (id : String) :
      Reachable m → Reachable (unregister m id).1
  | setPrimaryStep (m : ManagerState) (id : String) :
      Reachable m → Reachable (setPrimary m id).1
  | clearStep (m : ManagerState) :
      Reachable m → Reachable (managerClear m)

/-- Registry invariant: ids are unique, and the primary id (when set)
belongs to a registered source. -/
def ManagerInv (m : ManagerState) : Prop :=
  (m.sources.map (fun ds => ds.id)).Nodup ∧
  (∀ p, m.primary = some p → p ∈ m.sources.map (fun ds => ds.id))

/-! ## ConfigManager (src/packages/nexus-core/src/kernel/config.ts)

Configuration trees are untyped JavaScript objects: insertion-ordered
key/value lists.  Object spread `{...base, ...override}` keeps `base`'s key
order, overriding values in place, then appends `override`'s new keys; an
explicit `key: v` after spreads behaves like one more one-key override. -/

inductive JVal
  | jstr (s : String)
  | jnum (n : Int)
  | jbool (b : Bool)
  | jobj (fields : List (String × JVal))
deriving Repr

abbrev JsObj := List (String × JVal)

def jlookup (o : JsObj) (k : String) : Option JVal :=
  (o.find? (fun p => p.1 == k)).map (fun p => p.2)

def hasKey (o : JsObj) (k : String) : Bool :=
  o.any (fun p => p.1 == k)

/-- `{...base, ...override}` -/
def spreadUnion (base override : JsObj) : JsObj :=
  base.map (fun p =>
    match jlookup override p.1 with
    | some v => (p.1, v)
    | none => p) ++
  override.filter (fun p => !hasKey base p.1)

/-- An explicit `k: v` entry written after spreads in an object literal. -/
def setKey (o : JsObj) (k : String) (v : JVal) : JsObj :=
  if hasKey o k then
    o.map (fun p => if p.1 == k then (k, v) else p)
  else
    o ++ [(k, v)]

/-- `o.k || {}` (also used for `o?.k || {}`): the member's fields when it
is an object, else the empty object. -/
def getObjOr (o : JsObj) (k : String) : JsObj :=
  match jlookup o k with
  | some (JVal.jobj f) => f
  | _ => []

/-- `createDefaultConfig()` -/
def createDefaultConfig : JsObj :=
  [("app", JVal.jobj
     [("name", JVal.jstr "Nexus Admin"),
      ("version", JVal.jstr "0.1.0"),
      ("environment", JVal.jstr "development"),
      ("debug", JVal.jbool false),
      ("baseUrl", JVal.jstr "http://localhost:3000")]),
   ("plugins", JVal.jobj
     [("registry", JVal.jobj
        [("dataSources", JVal.jobj []),
         ("authProviders", JVal.jobj [])])]),
   ("security", JVal.jobj
     [("csrf", JVal.jbool false),
      ("cors", JVal.jobj [("enabled", JVal.jbool false)]),
      ("rateLimit", JVal.jobj [("enabled", JVal.jbool false)])]),
   ("ui", JVal.jobj [("theme", JVal.jstr "default")])]

/-- `mergeConfig(partial)` applied to a current configuration `config`. -/
def mergeConfig (config p : JsObj) : JsObj :=
  let base := spreadUnion config p
  let appSec := spreadUnion (getObjOr config "app") (getObjOr p "app")
  let pluginsSec := spreadUnion (getObjOr config "plugins") (getObjOr p "plugins")
  let registrySec := spreadUnion (getObjOr (getObjOr config "plugins") "registry")
    (getObjOr (getObjOr p "plugins") "registry")
  let pluginsFull := setKey pluginsSec "registry" (JVal.jobj registrySec)
  let securitySec := spreadUnion (getObjOr config "security") (getObjOr p "security")
  let uiSec := spreadUnion (getObjOr config "ui") (getObjOr p "ui")
  setKey (setKey (setKey (setKey base
    "app" (JVal.jobj appSec))
    "plugins" (JVal.jobj pluginsFull))
    "security" (JVal.jobj securitySec))
    "ui" (JVal.jobj uiSec)

/-- The `ConfigManager` constructor: defaults first, then the optional
partial merged on top. -/
def configInit (p : Option JsObj) : JsObj :=
  match p with
  | none => createDefaultConfig
  | some pp => mergeConfig createDefaultConfig pp

/-! ## SchemaUtils (src/packages/nexus-core/src/data/utils.ts) -/

inductive FieldType
  | string | number | boolean | date | datetime | time | uuid | json | text
  | email | url
deriving DecidableEq, Repr

/-- Split a character list at every occurrence of a separator (the
single-character case of `String.prototype.split`). -/
def splitChar (c : Char) : List Char → List (List Char)
  | [] => [[]]
  | x :: xs =>
    if x == c then
      [] :: splitChar c xs
    else
      match splitChar c xs with
      | [] => [[x]]
      | r :: rs => (x :: r) :: rs

/-- `/^[^\s@]+@[^\s@]+\.[^\s@]+$/.test(email)`: no whitespace anywhere,
exactly one `@` (so the split yields exactly two parts), a nonempty local
part, and in the domain a dot that has at least one character before and
after it. -/
def hasInnerDot (cs : List Char) : Bool :=
  match cs with
  | [] => false
  | _ :: rest => rest.dropLast.contains '.'

def isValidEmail (s : String) : Bool :=
  (s.toList.all (fun c => !c.isWhitespace)) &&
  (match splitChar '@' s.toList with
   | [loc, dom] => !loc.isEmpty && hasInnerDot dom
   | _ => false)

/-- `new URL(url)` succeeds — approximated as: a scheme
`[A-Za-z][A-Za-z0-9+.-]*` followed by `:` and an arbitrary remainder.
No string the claims exercise contains a colon after a well-formed scheme. -/
def isSchemeChar (c : Char) : Bool :=
  c.isAlphanum || c == '+' || c == '-' || c == '.'

def isValidUrl (s : String) : Bool :=
  match splitChar ':' s.toList with
  | scheme :: _ :: _ =>
    (match scheme with
     | [] => false
     | c :: cs => c.isAlpha && cs.all isSchemeChar)
  | _ => false

def isHexDigit (c : Char) : Bool :=
  c.isDigit || ('a' ≤ c && c ≤ 'f') || ('A' ≤ c && c ≤ 'F')

/-- `/^[0-9a-f]{8}-[0-9a-f]{4}-[1-5][0-9a-f]{3}-[89ab][0-9a-f]{3}-[0-9a-f]{12}$/i` -/
def isValidUuid (s : String) : Bool :=
  match splitChar '-' s.toList with
  | [a, b, c, d, e] =>
    a.length == 8 && a.all isHexDigit &&
    b.length == 4 && b.all isHexDigit &&
    c.length == 4 && c.all isHexDigit &&
    (match c with
     | v :: _ => '1' ≤ v && v ≤ '5'
     | [] => false) &&
    d.length == 4 && d.all isHexDigit &&
    (match d with
     | v :: _ => v == '8' || v == '9' || v == 'a' || v == 'b' || v == 'A' || v == 'B'
     | [] => false) &&
    e.length == 12 && e.all isHexDigit
  | _ => false

/-- `new Date(dateString)` parses — conservatively approximated as exactly
the `YYYY-MM-DD` digit shape.  JavaScript accepts more strings; none of
them are exercised by any claim (every string a claim feeds to type
inference is classified before this check). -/
def isValidDateStr (s : String) : Bool :=
  match splitChar '-' s.toList with
  | [y, m, d] =>
    y.length == 4 && y.all Char.isDigit &&
    m.length == 2 && m.all Char.isDigit &&
    d.length == 2 && d.all Char.isDigit
  | _ => false

/-- `SchemaUtils.inferFieldType(value)` -/
def inferFieldType : Value → FieldType
  | Value.vnull => FieldType.string
  | Value.vstr s =>
    if isValidEmail s then FieldType.email
    else if isValidUrl s then FieldType.url
    else if isValidUuid s then FieldType.uuid
    else if isValidDateStr s then FieldType.date
    else if s.length > 255 then FieldType.text
    else FieldType.string
  | Value.vnum _ => FieldType.number
  | Value.vbool _ => FieldType.boolean
  | Value.vdate _ => FieldType.datetime
  | Value.vjson _ => FieldType.json

/-- `FieldSchema` restricted to the members `inferTableSchema` writes;
optional members it leaves `undefined` are `false` here, matching their
only (falsy) use in primary-key selection. -/
structure FieldSchema where
  name : String
  type : FieldType
  nullable : Bool
  unique : Bool := false
  autoIncrement : Bool := false
deriving DecidableEq, Repr

/-- `TableSchema`; `indexes` and `relations` are always produced empty. -/
structure TableSchema where
  name : String
  fields : List FieldSchema
  primaryKey : List String
  indexes : List String := []
  relations : List String := []
deriving DecidableEq, Repr

/-- `Set.add` over field names: append unless present. -/
def insertName (acc : List String) (k : String) : List String :=
  if acc.contains k then acc else acc ++ [k]

/-- The field-name `Set` built by iterating all rows' keys in order. -/
def collectFieldNames (rows : List Row) : List String :=
  rows.foldl (fun acc r => (r.map (fun p => p.1)).foldl insertName acc) []

/-- `data.map(row => row[f]).filter(val => val !== null && val !== undefined)` -/
def nonNullValues (rows : List Row) (f : String) : List Value :=
  (rows.map (fun r => getField r f)).filterMap
    (fun o => if isNullish o then none else o)

/-- `new Set(values)` as a first-occurrence dedup list. -/
def jsDedup (vs : List Value) : List Value :=
  vs.foldl (fun acc v => if acc.contains v then acc else acc ++ [v]) []

/-- The character list `ps` begins the character list `xs`. -/
def leadsList : List Char → List Char → Bool
  | [], _ => true
  | _ :: _, [] => false
  | p :: ps, x :: xs => p == x && leadsList ps xs

/-- `pat` occurs as a contiguous run inside `cs`. -/
def containsSubList (pat cs : List Char) : Bool :=
  match cs with
  | [] => leadsList pat []
  | _ :: xs => leadsList pat cs || containsSubList pat xs

/-- `s.includes(pat)` -/
def jsIncludes (s pat : String) : Bool :=
  containsSubList pat.toList s.toList

/-- `s.toLowerCase()` restricted to ASCII case mapping. -/
def jsToLower (s : String) : String :=
  String.mk (s.toList.map Char.toLower)

/-- The per-field analysis of `inferTableSchema`. -/
def analyzeField (rows : List Row) (fieldName : String) : FieldSchema :=
  let values := nonNullValues rows fieldName
  match values with
  | [] => { name := fieldName, type := FieldType.string, nullable := true }
  | v0 :: _ =>
    let inferredType := inferFieldType v0
    let nullable := rows.any (fun r => isNullish (getField r fieldName))
    let isUnique := (jsDedup values).length == values.length
    let couldBePK := isUnique && !nullable &&
      (inferredType == FieldType.number || inferredType == FieldType.uuid)
    { name := fieldName, type := inferredType, nullable := nullable,
      unique := isUnique,
      autoIncrement := couldBePK && inferredType == FieldType.number }

/-- The primary-key identification chain of `inferTableSchema`: first
auto-increment field, else first unique field whose lowercased name
contains "id", else first unique non-nullable field. -/
def selectPrimaryKey (fields : List FieldSchema) : Option String :=
  match (fields.find? (fun f => f.autoIncrement)).map (fun f => f.name) with
  | some k => some k
  | none =>
    match (fields.find? (fun f => jsIncludes (jsToLower f.name) "id" && f.unique)).map
        (fun f => f.name) with
    | some k => some k
    | none => (fields.find? (fun f => f.unique && !f.nullable)).map (fun f => f.name)

/-- `SchemaUtils.inferTableSchema(tableName, data)` -/
def inferTableSchema (tableName : String) (rows : List Row) :
    Except String TableSchema :=
  if rows.length == 0 then
    Except.error "Cannot infer schema from empty data"
  else
    let names := collectFieldNames rows
    let fields : List FieldSchema := names.map (analyzeField rows)
    Except.ok
      { name := tableName, fields := fields,
        primaryKey := match selectPrimaryKey fields with
          | some k => [k]
          | none => [] }

/-! ## Concrete fixtures used to instantiate the theorems below -/

/-- An adapter that echoes inserts back as the created row and answers
selects/updates/deletes with an empty result. -/
def echoAdapter : Query → Except DErr QueryResult := fun q =>
  match q.operation, q.data with
  | QueryOp.insert, some d => Except.ok { data := [d], count := 1 }
  | _, _ => Except.ok { data := [], count := 0, affected := some 0 }

/-- The row the failing adapter rejects. -/
def failRow : Row := [("k", Value.vnum 13)]

/-- An adapter like `echoAdapter` that fails exactly on `failRow` inserts. -/
def pickyAdapter : Query → Except DErr QueryResult := fun q =>
  match q.operation, q.data with
  | QueryOp.insert, some d =>
    if d == failRow then Except.error (DErr.queryErr "duplicate key")
    else Except.ok { data := [d], count := 1 }
  | _, _ => Except.ok { data := [], count := 0, affected := some 0 }

def noBulkCaps : DataSourceCapabilities := { supportsBulkOperations := false }

def dsConnected : BaseDataSource :=
  { id := "d1", connected := true, capabilities := noBulkCaps, query := echoAdapter }

def dsDisconnected : BaseDataSource :=
  { id := "d2", connected := false, capabilities := noBulkCaps, query := echoAdapter }

def dsPicky : BaseDataSource :=
  { id := "d3", connected := true, capabilities := noBulkCaps, query := pickyAdapter }

def srcA : ManagedSource := { id := "a", name := "A", type := "sql", connected := false }

def srcB : ManagedSource := { id := "b", name := "B", type := "sql", connected := false }

/-- A managed source whose id is the empty string. -/
def srcEmptyId : ManagedSource := { id := "", name := "E", type := "sql", connected := false }

/-- The partial configuration `{app: {debug: true}}`. -/
def partialDebug : JsObj := [("app", JVal.jobj [("debug", JVal.jbool true)])]

/-- A unique non-null numeric field schema named `id`. -/
def idNumField : FieldSchema :=
  { name := "id", type := FieldType.number, nullable := false,
    unique := true, autoIncrement := true }

/-- The sample rows `[{id:1,email:"a@x.com"}, {id:2,email:"b@x.com"}]`. -/
def sampleRows : List Row :=
  [[("id", Value.vnum 1), ("email", Value.vstr "a@x.com")],
   [("id", Value.vnum 2), ("email", Value.vstr "b@x.com")]]

/-- An adapter whose every query fails. -/
def downAdapter : Query → Except DErr QueryResult :=
  fun _ => Except.error (DErr.queryErr "backend down")

def dsDown : BaseDataSource :=
  { id := "d4", connected := true, capabilities := noBulkCaps, query := downAdapter }

def rowA : Row := [("a", Value.vnum 1)]

def rowB : Row := [("b", Value.vnum 2)]

/-- The row `create` extracts from the adapter's reply to one insert
(used to state what the bulk-insert fallback aggregates). -/
def adapterInsertHead (ds : BaseDataSource) (t : String) (r : Row) : Option Row :=
  match ds.query (insertQuery t r) with
  | Except.ok res => res.data.head?
  | Except.error _ => none

/-- The row list `update` returns from the adapter's reply to one update. -/
def adapterUpdateRows (ds : BaseDataSource) (t : String) (it : BulkUpdateItem) :
    List Row :=
  match ds.query (updateQuery t it.whereC it.data) with
  | Except.ok res => res.data
  | Except.error _ => []

/-- The affected count `delete` returns from the adapter's reply to one
delete. -/
def adapterAffected (ds : BaseDataSource) (t : String) (wh : List WhereClause) :
    Nat :=
  match ds.query (deleteQuery t wh) with
  | Except.ok res => res.affected.getD 0
  | Except.error _ => 0

/-! # Theorems -/

/-- Plugins whose `onInit` appends their id to the shared log leave exactly
the ids, in registration order, appended to the log. -/
theorem runInits_log (ps : List (NexusPlugin (List String))) (log : List String)
    (h : ∀ p ∈ ps, p.hooks.onInit = some (logInitHook p.id)) :
    runInits ps log = (log ++ ps.map (fun p => p.id), Except.ok ()) := by
  induction ps generalizing log with
  | nil => simp [runInits]
  | cons p rest ih =>
    have hp := h p (List.mem_cons_self _ _)
    have hr : ∀ q ∈ rest, q.hooks.onInit = some (logInitHook q.id) :=
      fun q hq => h q (List.mem_cons_of_mem _ hq)
    simp [runInits, hp, logInitHook, ih _ hr]

/-- C1: `bootstrap()` runs each registered plugin's `onInit` hook strictly
sequentially in registration order (each hook is awaited before the next
starts, so id-logging plugins A, B, C produce the log `[A, B, C]`), then
marks the kernel ready and emits `kernel:ready`; on an already-bootstrapped
kernel it fails without invoking any hook or changing any state. -/
theorem c1_bootstrap_order :
    (∀ (ps : List (NexusPlugin (List String))) (log : List String),
      (∀ p ∈ ps, p.hooks.onInit = some (logInitHook p.id)) →
      bootstrap (⟨ps, false⟩ : KernelState (List String)) log =
        (⟨ps, true⟩, log ++ ps.map (fun p => p.id), ["kernel:ready"], Except.ok ())) ∧
    (∀ (σ : Type) (k : KernelState σ) (s : σ), k.initialized = true →
      bootstrap k s = (k, s, [], Except.error "Kernel is already initialized")) := by
  constructor
  · intro ps log h
    simp [bootstrap, runInits_log ps log h]
  · intro σ k s h
    simp [bootstrap, h]

/-- Witness for C1: three log-appending plugins A, B, C produce the log
`["A", "B", "C"]` and a ready kernel; a bootstrapped kernel refuses. -/
theorem c1_bootstrap_order_witness :
    bootstrap (⟨[logPlugin "A", logPlugin "B", logPlugin "C"], false⟩ :
        KernelState (List String)) [] =
      (⟨[logPlugin "A", logPlugin "B", logPlugin "C"], true⟩,
        ["A", "B", "C"], ["kernel:ready"], Except.ok ()) ∧
    bootstrap (⟨[], true⟩ : KernelState Unit) () =
      (⟨[], true⟩, (), [], Except.error "Kernel is already initialized") := by
  constructor
  · have h := c1_bootstrap_order.1 [logPlugin "A", logPlugin "B", logPlugin "C"] []
      (by intro p hp
          simp only [List.mem_cons, List.mem_singleton] at hp
          rcases hp with rfl | rfl | rfl | h
          · rfl
          · rfl
          · rfl
          · simp at h)
    simpa [logPlugin] using h
  · exact c1_bootstrap_order.2 Unit ⟨[], true⟩ () rfl

/-- C2 (amended): a `registerPlugin` call that fails with a duplicate id
leaves the kernel entirely unchanged (the prior plugin under that id keeps
its hooks and registration state); but when the `onLoad` hook throws, the
error propagates with the plugin already added to the registry, because the
map insertion happens before the hook is awaited. -/
theorem c2_register_failure_mutation :
    (∀ (σ : Type) (k : KernelState σ) (p : NexusPlugin σ) (s : σ),
      k.plugins.any (fun q => q.id == p.id) = true →
      registerPlugin k p s =
        (k, s, [], Except.error ("Plugin " ++ p.id ++ " is already registered"))) ∧
    (∀ (σ : Type) (k : KernelState σ) (p : NexusPlugin σ) (s : σ)
      (h : σ → Except String σ) (e : String),
      k.plugins.any (fun q => q.id == p.id) = false →
      p.hooks.onLoad = some h → h s = Except.error e →
      registerPlugin k p s =
        ({ k with plugins := k.plugins ++ [p] }, s, [], Except.error e)) := by
  constructor
  · intro σ k p s hdup
    simp [registerPlugin, hdup]
  · intro σ k p s h e hdup hload hthrow
    simp [registerPlugin, hdup, hload, hthrow]

/-- Counterexample for C2 as stated: registering a plugin whose `onLoad`
throws is a failing `registerPlugin` call, yet the plugin has been added to
the registry. -/
theorem c2_register_failure_mutation_cex :
    (registerPlugin (kernelInit Unit) throwingLoadPlugin ()).2.2.2 =
      Except.error "boom" ∧
    (registerPlugin (kernelInit Unit) throwingLoadPlugin
      ()).1.plugins.any (fun q => q.id == "p") = true := by
  constructor
  · rfl
  · rfl

/-- Witness for C2: a concrete duplicate registration mutates nothing, and
a concrete throwing `onLoad` leaves the plugin registered. -/
theorem c2_register_failure_mutation_witness :
    registerPlugin (⟨[⟨"p", {}⟩], false⟩ : KernelState Unit) ⟨"p", {}⟩ () =
      (⟨[⟨"p", {}⟩], false⟩, (), [],
        Except.error "Plugin p is already registered") ∧
    registerPlugin (kernelInit Unit) throwingLoadPlugin () =
      (⟨[throwingLoadPlugin], false⟩, (), [], Except.error "boom") := by
  constructor
  · exact c2_register_failure_mutation.1 Unit ⟨[⟨"p", {}⟩], false⟩ ⟨"p", {}⟩ () rfl
  · exact c2_register_failure_mutation.2 Unit (kernelInit Unit) throwingLoadPlugin ()
      (fun _ => Except.error "boom") "boom" rfl rfl rfl

/-- C5: query validation rejects an insert without data, an update without
data or without a where list, and a delete without a where list; an update
with data and a present-but-empty where list passes; a table name not
matching `^[A-Za-z][A-Za-z0-9_]*$` (e.g. "1bad") fails table-name
validation; validation is a pure check performed without any adapter
query. -/
theorem c5_validate_query :
    (∀ q : Query, validateTableName q.table = Except.ok () →
      q.operation = QueryOp.insert → q.data = none →
      validateQuery q =
        Except.error (DErr.queryErr "Insert operation requires data")) ∧
    (∀ q : Query, validateTableName q.table = Except.ok () →
      q.operation = QueryOp.update → (q.data = none ∨ q.whereC = none) →
      validateQuery q =
        Except.error (DErr.queryErr "Update operation requires data and where conditions")) ∧
    (∀ q : Query, validateTableName q.table = Except.ok () →
      q.operation = QueryOp.delete → q.whereC = none →
      validateQuery q =
        Except.error (DErr.queryErr "Delete operation requires where conditions")) ∧
    (∀ (t : String) (d : Row), validateTableName t = Except.ok () →
      validateQuery
        { table := t, operation := QueryOp.update, data := some d,
          whereC := some [] } = Except.ok ()) ∧
    validateTableName "1bad" =
      Except.error (DErr.schemaErr "Table name contains invalid characters") ∧
    (∀ q : Query, q.table = "1bad" →
      validateQuery q =
        Except.error (DErr.schemaErr "Table name contains invalid characters")) := by
  have hne : ∀ t : String, validateTableName t = Except.ok () → (t == "") = false := by
    intro t h
    by_contra hc
    have : t = "" := by
      cases he : (t == "") with
      | false => exact absurd he hc
      | true => exact eq_of_beq he
    rw [this] at h
    simp [validateTableName] at h
  refine ⟨?_, ?_, ?_, ?_, ?_, ?_⟩
  · intro q hv hop hd
    simp [validateQuery, hne q.table hv, hv, hop, hd]
  · intro q hv hop hd
    rcases hd with hd | hw
    · simp [validateQuery, hne q.table hv, hv, hop, hd]
    · simp [validateQuery, hne q.table hv, hv, hop, hw]
  · intro q hv hop hw
    simp [validateQuery, hne q.table hv, hv, hop, hw]
  · intro t d hv
    simp [validateQuery, hne t hv, hv]
  · rfl
  · intro q ht
    simp [validateQuery, ht, validateTableName, matchesTablePattern]

/-- Witness for C5: the spec's concrete queries behave as stated. -/
theorem c5_validate_query_witness :
    validateQuery
      { table := "t", operation := QueryOp.update, whereC := some [] } =
      Except.error (DErr.queryErr "Update operation requires data and where conditions") ∧
    validateQuery
      { table := "t", operation := QueryOp.update, data := some [],
        whereC := some [] } = Except.ok () ∧
    validateQuery
      { table := "1bad", operation := QueryOp.select } =
      Except.error (DErr.schemaErr "Table name contains invalid characters") := by
  refine ⟨?_, ?_, ?_⟩
  · exact c5_validate_query.2.1 _ rfl rfl (Or.inl rfl)
  · exact c5_validate_query.2.2.2.1 "t" [] rfl
  · exact c5_validate_query.2.2.2.2.2 _ rfl

/-- C3: every public CRUD method of `BaseDataSource` raises a
`ConnectionError` before handing any query to the adapter primitive when
the connected flag is false, and proceeds to hand the adapter exactly its
one shaped query when the flag is true. -/
theorem c3_crud_asserts_connected :
    (∀ (ds : BaseDataSource) (t : String) (wh : List WhereClause)
      (whO : Option (List WhereClause)) (ordO : Option (List OrderClause))
      (limO offO : Option Int) (d : Row),
      ds.connected = false →
      findOne ds t wh =
        (Except.error (DErr.connection "Data source is not connected"), []) ∧
      findMany ds t whO ordO limO offO =
        (Except.error (DErr.connection "Data source is not connected"), []) ∧
      create ds t d =
        (Except.error (DErr.connection "Data source is not connected"), []) ∧
      update ds t wh d =
        (Except.error (DErr.connection "Data source is not connected"), []) ∧
      deleteRows ds t wh =
        (Except.error (DErr.connection "Data source is not connected"), []) ∧
      existsRow ds t wh =
        (Except.error (DErr.connection "Data source is not connected"), []) ∧
      count ds t whO =
        (Except.error (DErr.connection "Data source is not connected"), [])) ∧
    (∀ (ds : BaseDataSource) (t : String) (wh : List WhereClause)
      (whO : Option (List WhereClause)) (ordO : Option (List OrderClause))
      (limO offO : Option Int) (d : Row),
      ds.connected = true →
      (findOne ds t wh).2 =
        [{ table := t, operation := QueryOp.select, whereC := some wh,
           limit := some 1 }] ∧
      (findMany ds t whO ordO limO offO).2 =
        [{ table := t, operation := QueryOp.select, whereC := whO,
           orderBy := ordO, limit := limO, offset := offO }] ∧
      (create ds t d).2 = [insertQuery t d] ∧
      (update ds t wh d).2 = [updateQuery t wh d] ∧
      (deleteRows ds t wh).2 = [deleteQuery t wh] ∧
      (existsRow ds t wh).2 =
        [{ table := t, operation := QueryOp.select,
           fields := some ["COUNT(*) as count"], whereC := some wh }] ∧
      (count ds t whO).2 =
        [{ table := t, operation := QueryOp.select,
           fields := some ["COUNT(*) as count"], whereC := whO }]) := by
  constructor
  · intro ds t wh whO ordO limO offO d h
    refine ⟨?_, ?_, ?_, ?_, ?_, ?_, ?_⟩ <;>
      simp [findOne, findMany, create, update, deleteRows, existsRow, count,
        assertConnected, h]
  · intro ds t wh whO ordO limO offO d h
    have hcount : ∀ w : Option (List WhereClause), (count ds t w).2 =
        [{ table := t, operation := QueryOp.select,
           fields := some ["COUNT(*) as count"], whereC := w }] := by
      intro w
      simp [count, assertConnected, h]
      repeat' split
      all_goals rfl
    refine ⟨?_, ?_, ?_, ?_, ?_, ?_, hcount whO⟩
    · simp [findOne, assertConnected, h]
      repeat' split
      all_goals rfl
    · simp [findMany, assertConnected, h]
    · simp [create, assertConnected, h]
      repeat' split
      all_goals rfl
    · simp [update, assertConnected, h]
      repeat' split
      all_goals rfl
    · simp [deleteRows, assertConnected, h]
      repeat' split
      all_goals rfl
    · have h2 := hcount (some wh)
      simp only [existsRow]
      split <;> simp_all

/-- Witness for C3: a disconnected data source raises the `ConnectionError`
from every CRUD method without adapter traffic; a connected one reaches the
adapter. -/
theorem c3_crud_asserts_connected_witness :
    findOne dsDisconnected "t" [] =
      (Except.error (DErr.connection "Data source is not connected"), []) ∧
    existsRow dsDisconnected "t" [] =
      (Except.error (DErr.connection "Data source is not connected"), []) ∧
    (findOne dsConnected "t" []).2 =
      [{ table := "t", operation := QueryOp.select, whereC := some [],
         limit := some 1 }] ∧
    (count dsConnected "t" none).2 =
      [{ table := "t", operation := QueryOp.select,
         fields := some ["COUNT(*) as count"], whereC := none }] := by
  have h1 := c3_crud_asserts_connected.1 dsDisconnected "t" [] none none none none [] rfl
  have h2 := c3_crud_asserts_connected.2 dsConnected "t" [] none none none none [] rfl
  exact ⟨h1.1, h1.2.2.2.2.2.1, h2.1, h2.2.2.2.2.2.2⟩

/-- A successful `create`, spelled via the adapter's reply. -/
theorem create_ok (ds : BaseDataSource) (t : String) (r : Row)
    (res : QueryResult) (hd : Row) (h : ds.connected = true)
    (hq : ds.query (insertQuery t r) = Except.ok res)
    (hhd : res.data.head? = some hd) :
    create ds t r = (Except.ok hd, [insertQuery t r]) := by
  simp [create, assertConnected, h, hq, hhd]

/-- Every row of a fully successful bulk-insert input contributes exactly
its created row. -/
theorem adapterInsertHead_length (ds : BaseDataSource) (t : String)
    (rows : List Row)
    (hall : ∀ r ∈ rows, ∃ res hd, ds.query (insertQuery t r) = Except.ok res ∧
      res.data.head? = some hd) :
    (rows.filterMap (adapterInsertHead ds t)).length = rows.length := by
  induction rows with
  | nil => simp
  | cons r rs ih =>
    obtain ⟨res, hd, hq, hhd⟩ := hall r (by simp)
    have hh : adapterInsertHead ds t r = some hd := by
      simp [adapterInsertHead, hq, hhd]
    simp [hh, ih (fun x hx => hall x (by simp [hx]))]

/-- The bulk-insert fallback loop on an all-successful input. -/
theorem bulkInsertAux_ok (ds : BaseDataSource) (t : String) (rows : List Row)
    (h : ds.connected = true)
    (hall : ∀ r ∈ rows, ∃ res hd, ds.query (insertQuery t r) = Except.ok res ∧
      res.data.head? = some hd) :
    bulkInsertAux ds t rows =
      (Except.ok (rows.filterMap (adapterInsertHead ds t)),
        rows.map (insertQuery t)) := by
  induction rows with
  | nil => simp [bulkInsertAux]
  | cons r rs ih =>
    obtain ⟨res, hd, hq, hhd⟩ := hall r (by simp)
    have hcr := create_ok ds t r res hd h hq hhd
    have hh : adapterInsertHead ds t r = some hd := by
      simp [adapterInsertHead, hq, hhd]
    simp [bulkInsertAux, hcr, hh, ih (fun x hx => hall x (by simp [hx]))]

/-- The bulk-insert fallback loop stops at the first failing `create`. -/
theorem bulkInsertAux_failfast (ds : BaseDataSource) (t : String)
    (pre : List Row) (bad : Row) (post : List Row) (e : DErr) (qs : List Query)
    (h : ds.connected = true)
    (hpre : ∀ r ∈ pre, ∃ res hd, ds.query (insertQuery t r) = Except.ok res ∧
      res.data.head? = some hd)
    (hbad : create ds t bad = (Except.error e, qs)) :
    bulkInsertAux ds t (pre ++ bad :: post) =
      (Except.error e, pre.map (insertQuery t) ++ qs) := by
  induction pre with
  | nil => simp [bulkInsertAux, hbad]
  | cons r rs ih =>
    obtain ⟨res, hd, hq, hhd⟩ := hpre r (by simp)
    have hcr := create_ok ds t r res hd h hq hhd
    simp [bulkInsertAux, hcr, ih (fun x hx => hpre x (by simp [hx]))]

/-- A successful `update`, spelled via the adapter's reply. -/
theorem update_ok (ds : BaseDataSource) (t : String) (it : BulkUpdateItem)
    (res : QueryResult) (h : ds.connected = true)
    (hq : ds.query (updateQuery t it.whereC it.data) = Except.ok res) :
    update ds t it.whereC it.data =
      (Except.ok res.data, [updateQuery t it.whereC it.data]) := by
  simp [update, assertConnected, h, hq]

/-- The bulk-update fallback loop on an all-successful input. -/
theorem bulkUpdateAux_ok (ds : BaseDataSource) (t : String)
    (items : List BulkUpdateItem) (h : ds.connected = true)
    (hall : ∀ it ∈ items, ∃ res,
      ds.query (updateQuery t it.whereC it.data) = Except.ok res) :
    bulkUpdateAux ds t items =
      (Except.ok (items.map (adapterUpdateRows ds t)).flatten,
        items.map (fun it => updateQuery t it.whereC it.data)) := by
  induction items with
  | nil => simp [bulkUpdateAux]
  | cons it its ih =>
    obtain ⟨res, hq⟩ := hall it (by simp)
    have hup := update_ok ds t it res h hq
    have hh : adapterUpdateRows ds t it = res.data := by
      simp [adapterUpdateRows, hq]
    simp [bulkUpdateAux, hup, hh, ih (fun x hx => hall x (by simp [hx]))]

/-- The bulk-update fallback loop stops at the first failing `update`. -/
theorem bulkUpdateAux_failfast (ds : BaseDataSource) (t : String)
    (pre : List BulkUpdateItem) (bad : BulkUpdateItem)
    (post : List BulkUpdateItem) (e : DErr) (qs : List Query)
    (h : ds.connected = true)
    (hpre : ∀ it ∈ pre, ∃ res,
      ds.query (updateQuery t it.whereC it.data) = Except.ok res)
    (hbad : update ds t bad.whereC bad.data = (Except.error e, qs)) :
    bulkUpdateAux ds t (pre ++ bad :: post) =
      (Except.error e,
        pre.map (fun it => updateQuery t it.whereC it.data) ++ qs) := by
  induction pre with
  | nil => simp [bulkUpdateAux, hbad]
  | cons it its ih =>
    obtain ⟨res, hq⟩ := hpre it (by simp)
    have hup := update_ok ds t it res h hq
    simp [bulkUpdateAux, hup, ih (fun x hx => hpre x (by simp [hx]))]

/-- A successful `delete`, spelled via the adapter's reply. -/
theorem deleteRows_ok (ds : BaseDataSource) (t : String)
    (wh : List WhereClause) (res : QueryResult) (h : ds.connected = true)
    (hq : ds.query (deleteQuery t wh) = Except.ok res) :
    deleteRows ds t wh = (Except.ok (res.affected.getD 0), [deleteQuery t wh]) := by
  simp [deleteRows, assertConnected, h, hq]

/-- The bulk-delete fallback loop on an all-successful input. -/
theorem bulkDeleteAux_ok (ds : BaseDataSource) (t : String)
    (whs : List (List WhereClause)) (h : ds.connected = true)
    (hall : ∀ wh ∈ whs, ∃ res, ds.query (deleteQuery t wh) = Except.ok res) :
    bulkDeleteAux ds t whs =
      (Except.ok (whs.map (adapterAffected ds t)).sum, whs.map (deleteQuery t)) := by
  induction whs with
  | nil => simp [bulkDeleteAux]
  | cons wh whs ih =>
    obtain ⟨res, hq⟩ := hall wh (by simp)
    have hdel := deleteRows_ok ds t wh res h hq
    have hh : adapterAffected ds t wh = res.affected.getD 0 := by
      simp [adapterAffected, hq]
    simp [bulkDeleteAux, hdel, hh, ih (fun x hx => hall x (by simp [hx]))]

/-- The bulk-delete fallback loop stops at the first failing `delete`. -/
theorem bulkDeleteAux_failfast (ds : BaseDataSource) (t : String)
    (pre : List (List WhereClause)) (bad : List WhereClause)
    (post : List (List WhereClause)) (e : DErr) (qs : List Query)
    (h : ds.connected = true)
    (hpre : ∀ wh ∈ pre, ∃ res, ds.query (deleteQuery t wh) = Except.ok res)
    (hbad : deleteRows ds t bad = (Except.error e, qs)) :
    bulkDeleteAux ds t (pre ++ bad :: post) =
      (Except.error e, pre.map (deleteQuery t) ++ qs) := by
  induction pre with
  | nil => simp [bulkDeleteAux, hbad]
  | cons wh whs ih =>
    obtain ⟨res, hq⟩ := hpre wh (by simp)
    have hdel := deleteRows_ok ds t wh res h hq
    simp [bulkDeleteAux, hdel, ih (fun x hx => hpre x (by simp [hx]))]

/-- C4: when the capability set lacks bulk support, `bulkInsert` performs
exactly one single-row `create` per input row, sequentially in input order,
returns the created rows in that order with `count` equal to the number of
rows on full success, and stops at the first underlying error without
attempting any later row; `bulkUpdate` and `bulkDelete` behave analogously
over their sequential `update`/`delete` fallbacks. -/
theorem c4_bulk_fallback :
    (∀ (ds : BaseDataSource) (t : String) (rows : List Row),
      ds.connected = true → ds.capabilities.supportsBulkOperations = false →
      (∀ r ∈ rows, ∃ res hd, ds.query (insertQuery t r) = Except.ok res ∧
        res.data.head? = some hd) →
      bulkInsert ds t rows =
        (Except.ok { data := rows.filterMap (adapterInsertHead ds t),
                     count := rows.length }, rows.map (insertQuery t)) ∧
      (rows.filterMap (adapterInsertHead ds t)).length = rows.length) ∧
    (∀ (ds : BaseDataSource) (t : String) (pre : List Row) (bad : Row)
      (post : List Row) (e : DErr) (qs : List Query),
      ds.connected = true → ds.capabilities.supportsBulkOperations = false →
      (∀ r ∈ pre, ∃ res hd, ds.query (insertQuery t r) = Except.ok res ∧
        res.data.head? = some hd) →
      create ds t bad = (Except.error e, qs) →
      bulkInsert ds t (pre ++ bad :: post) =
        (Except.error e, pre.map (insertQuery t) ++ qs)) ∧
    (∀ (ds : BaseDataSource) (t : String) (items : List BulkUpdateItem),
      ds.connected = true → ds.capabilities.supportsBulkOperations = false →
      (∀ it ∈ items, ∃ res,
        ds.query (updateQuery t it.whereC it.data) = Except.ok res) →
      bulkUpdate ds t items =
        (Except.ok { data := (items.map (adapterUpdateRows ds t)).flatten,
                     count := ((items.map (adapterUpdateRows ds t)).flatten).length },
          items.map (fun it => updateQuery t it.whereC it.data))) ∧
    (∀ (ds : BaseDataSource) (t : String) (pre : List BulkUpdateItem)
      (bad : BulkUpdateItem) (post : List BulkUpdateItem) (e : DErr)
      (qs : List Query),
      ds.connected = true → ds.capabilities.supportsBulkOperations = false →
      (∀ it ∈ pre, ∃ res,
        ds.query (updateQuery t it.whereC it.data) = Except.ok res) →
      update ds t bad.whereC bad.data = (Except.error e, qs) →
      bulkUpdate ds t (pre ++ bad :: post) =
        (Except.error e,
          pre.map (fun it => updateQuery t it.whereC it.data) ++ qs)) ∧
    (∀ (ds : BaseDataSource) (t : String) (whs : List (List WhereClause)),
      ds.connected = true → ds.capabilities.supportsBulkOperations = false →
      (∀ wh ∈ whs, ∃ res, ds.query (deleteQuery t wh) = Except.ok res) →
      bulkDelete ds t whs =
        (Except.ok (whs.map (adapterAffected ds t)).sum, whs.map (deleteQuery t))) ∧
    (∀ (ds : BaseDataSource) (t : String) (pre : List (List WhereClause))
      (bad : List WhereClause) (post : List (List WhereClause)) (e : DErr)
      (qs : List Query),
      ds.connected = true → ds.capabilities.supportsBulkOperations = false →
      (∀ wh ∈ pre, ∃ res, ds.query (deleteQuery t wh) = Except.ok res) →
      deleteRows ds t bad = (Except.error e, qs) →
      bulkDelete ds t (pre ++ bad :: post) =
        (Except.error e, pre.map (deleteQuery t) ++ qs)) := by
  refine ⟨?_, ?_, ?_, ?_, ?_, ?_⟩
  · intro ds t rows h hcap hall
    have hlen := adapterInsertHead_length ds t rows hall
    have haux := bulkInsertAux_ok ds t rows h hall
    exact ⟨by simp [bulkInsert, hcap, haux, hlen], hlen⟩
  · intro ds t pre bad post e qs h hcap hpre hbad
    simp [bulkInsert, hcap, bulkInsertAux_failfast ds t pre bad post e qs h hpre hbad]
  · intro ds t items h hcap hall
    simp [bulkUpdate, hcap, bulkUpdateAux_ok ds t items h hall]
  · intro ds t pre bad post e qs h hcap hpre hbad
    simp [bulkUpdate, hcap, bulkUpdateAux_failfast ds t pre bad post e qs h hpre hbad]
  · intro ds t whs h hcap hall
    simp [bulkDelete, hcap, bulkDeleteAux_ok ds t whs h hall]
  · intro ds t pre bad post e qs h hcap hpre hbad
    simp [bulkDelete, hcap, bulkDeleteAux_failfast ds t pre bad post e qs h hpre hbad]

/-- Witness for C4: a bulk-incapable source echoes two inserted rows in
order with count 2; a source failing on the middle row stops there with one
insert issued before it and none after; update/delete fallbacks behave
likewise at concrete inputs. -/
theorem c4_bulk_fallback_witness :
    bulkInsert dsConnected "t" [rowA, rowB] =
      (Except.ok { data := [rowA, rowB], count := 2 },
        [insertQuery "t" rowA, insertQuery "t" rowB]) ∧
    bulkInsert dsPicky "t" [rowA, failRow, rowB] =
      (Except.error (DErr.queryErr "duplicate key"),
        [insertQuery "t" rowA, insertQuery "t" failRow]) ∧
    bulkUpdate dsConnected "t" [{ whereC := [], data := rowA }] =
      (Except.ok { data := [], count := 0 }, [updateQuery "t" [] rowA]) ∧
    bulkUpdate dsDown "t" [{ whereC := [], data := rowA }] =
      (Except.error (DErr.queryErr "backend down"), [updateQuery "t" [] rowA]) ∧
    bulkDelete dsConnected "t" [[]] = (Except.ok 0, [deleteQuery "t" []]) ∧
    bulkDelete dsDown "t" [[]] =
      (Except.error (DErr.queryErr "backend down"), [deleteQuery "t" []]) := by
  refine ⟨?_, ?_, ?_, ?_, ?_, ?_⟩
  · have h := (c4_bulk_fallback.1 dsConnected "t" [rowA, rowB] rfl rfl
      (by intro r hr
          simp only [List.mem_cons, List.mem_singleton] at hr
          rcases hr with rfl | rfl | h
          · exact ⟨{ data := [rowA], count := 1 }, rowA, rfl, rfl⟩
          · exact ⟨{ data := [rowB], count := 1 }, rowB, rfl, rfl⟩
          · simp at h)).1
    simpa [adapterInsertHead, dsConnected, echoAdapter, insertQuery] using h
  · have h := c4_bulk_fallback.2.1 dsPicky "t" [rowA] failRow [rowB]
      (DErr.queryErr "duplicate key") [insertQuery "t" failRow] rfl rfl
      (by intro r hr
          simp only [List.mem_singleton] at hr
          subst hr
          exact ⟨{ data := [rowA], count := 1 }, rowA, rfl, rfl⟩)
      (by rfl)
    simpa using h
  · have h := c4_bulk_fallback.2.2.1 dsConnected "t" [{ whereC := [], data := rowA }]
      rfl rfl
      (by intro it hit
          simp only [List.mem_singleton] at hit
          subst hit
          exact ⟨{ data := [], count := 0, affected := some 0 }, rfl⟩)
    simpa [adapterUpdateRows, dsConnected, echoAdapter, updateQuery] using h
  · have h := c4_bulk_fallback.2.2.2.1 dsDown "t" [] { whereC := [], data := rowA }
      [] (DErr.queryErr "backend down") [updateQuery "t" [] rowA] rfl rfl
      (by intro it hit; simp at hit) (by rfl)
    simpa using h
  · have h := c4_bulk_fallback.2.2.2.2.1 dsConnected "t" [[]] rfl rfl
      (by intro wh hwh
          simp only [List.mem_singleton] at hwh
          subst hwh
          exact ⟨{ data := [], count := 0, affected := some 0 }, rfl⟩)
    simpa [adapterAffected, dsConnected, echoAdapter, deleteQuery] using h
  · have h := c4_bulk_fallback.2.2.2.2.2 dsDown "t" [] [] []
      (DErr.queryErr "backend down") [deleteQuery "t" []] rfl rfl
      (by intro wh hwh; simp at hwh) (by rfl)
    simpa using h

/-- A `managerHas` test spelled as list membership of the id. -/
theorem managerHas_iff (m : ManagerState) (id : String) :
    managerHas m id = true ↔ id ∈ m.sources.map (fun ds => ds.id) := by
  rw [managerHas, List.any_eq_true]
  constructor
  · rintro ⟨x, hx, hid⟩
    rw [List.mem_map]
    exact ⟨x, hx, eq_of_beq hid⟩
  · intro hmem
    rw [List.mem_map] at hmem
    obtain ⟨x, hx, hid⟩ := hmem
    exact ⟨x, hx, by simp [hid]⟩

/-- `setPrimary` on a registered id. -/
theorem setPrimary_found (m : ManagerState) (id : String)
    (h : managerHas m id = true) :
    setPrimary m id = ({ m with primary := some id }, Except.ok ()) := by
  simp [setPrimary, h]

/-- `setPrimary` on an unknown id. -/
theorem setPrimary_missing (m : ManagerState) (id : String)
    (h : managerHas m id = false) :
    setPrimary m id = (m, Except.error ("Data source " ++ id ++ " not found")) := by
  simp [setPrimary, h]

/-- A duplicate `register` throws without mutating anything. -/
theorem register_dup (m : ManagerState) (ds : ManagedSource)
    (h : managerHas m ds.id = true) :
    register m ds =
      (m, Except.error ("Data source with id " ++ ds.id ++ " is already registered")) := by
  simp [register, h]

/-- A fresh `register` with no truthy primary promotes the new source. -/
theorem register_promotes (m : ManagerState) (ds : ManagedSource)
    (h : managerHas m ds.id = false)
    (hn : noPrimary { m with sources := m.sources ++ [ds] } = true) :
    register m ds =
      ({ sources := m.sources ++ [ds], primary := some ds.id }, Except.ok ()) := by
  have hmem : managerHas { m with sources := m.sources ++ [ds] } ds.id = true := by
    simp [managerHas]
  simp [register, h, hn, setPrimary, hmem]

/-- A fresh `register` with a truthy primary keeps the primary. -/
theorem register_keeps (m : ManagerState) (ds : ManagedSource)
    (h : managerHas m ds.id = false)
    (hn : noPrimary { m with sources := m.sources ++ [ds] } = false) :
    register m ds = ({ m with sources := m.sources ++ [ds] }, Except.ok ()) := by
  simp [register, h, hn]

/-- `unregister` on an unknown id throws without mutating anything. -/
theorem unregister_missing (m : ManagerState) (id : String)
    (h : m.sources.find? (fun ds => ds.id == id) = none) :
    unregister m id = (m, Except.error ("Data source " ++ id ++ " not found")) := by
  simp [unregister, h]

/-- `unregister` of a non-primary source only filters the registry. -/
theorem unregister_nonprimary (m : ManagerState) (id : String)
    (found : ManagedSource)
    (hf : m.sources.find? (fun ds => ds.id == id) = some found)
    (hp : (m.primary == some id) = false) :
    unregister m id =
      ({ m with sources := m.sources.filter (fun ds => ds.id != id) },
        Except.ok ()) := by
  simp only [unregister, hf, hp, Bool.false_eq_true, if_false]

/-- `unregister` of the primary with nothing left clears the primary. -/
theorem unregister_primary_none (m : ManagerState) (id : String)
    (found : ManagedSource)
    (hf : m.sources.find? (fun ds => ds.id == id) = some found)
    (hp : (m.primary == some id) = true)
    (hr : (m.sources.filter (fun ds => ds.id != id)).head? = none) :
    unregister m id =
      ({ sources := m.sources.filter (fun ds => ds.id != id), primary := none },
        Except.ok ()) := by
  simp only [unregister, hf, hp, if_true]
  rw [hr]

/-- `unregister` of the primary whose first survivor has the empty-string
id skips promotion (the survivor's id is falsy). -/
theorem unregister_primary_emptyId (m : ManagerState) (id : String)
    (found f : ManagedSource)
    (hf : m.sources.find? (fun ds => ds.id == id) = some found)
    (hp : (m.primary == some id) = true)
    (hr : (m.sources.filter (fun ds => ds.id != id)).head? = some f)
    (hfe : (f.id == "") = true) :
    unregister m id =
      ({ sources := m.sources.filter (fun ds => ds.id != id), primary := none },
        Except.ok ()) := by
  simp only [unregister, hf, hp, if_true]
  rw [hr]
  simp [hfe]

/-- `unregister` of the primary promotes the first survivor when its id is
truthy. -/
theorem unregister_primary_promotes (m : ManagerState) (id : String)
    (found f : ManagedSource)
    (hf : m.sources.find? (fun ds => ds.id == id) = some found)
    (hp : (m.primary == some id) = true)
    (hr : (m.sources.filter (fun ds => ds.id != id)).head? = some f)
    (hfe : (f.id == "") = false) :
    unregister m id =
      ({ sources := m.sources.filter (fun ds => ds.id != id),
         primary := some f.id }, Except.ok ()) := by
  have hmem : f ∈ m.sources.filter (fun ds => ds.id != id) :=
    List.mem_of_mem_head? hr
  have hhas : managerHas
      { sources := m.sources.filter (fun ds => ds.id != id),
        primary := (none : Option String) } f.id = true := by
    simp only [managerHas, List.any_eq_true]
    exact ⟨f, hmem, by simp⟩
  simp only [unregister, hf, hp, if_true]
  rw [hr]
  simp [hfe, setPrimary, hhas]

/-- Every reachable manager state satisfies the registry invariant. -/
theorem reachable_managerInv (m : ManagerState) (h : Reachable m) :
    ManagerInv m := by
  induction h with
  | init =>
    exact ⟨by simp [managerInit], fun p hp => Option.noConfusion hp⟩
  | regStep m ds _ ih =>
    obtain ⟨hnd, hpr⟩ := ih
    cases hdup : managerHas m ds.id with
    | true => rw [register_dup m ds hdup]; exact ⟨hnd, hpr⟩
    | false =>
      have hnotin : ds.id ∉ m.sources.map (fun x => x.id) := by
        intro hmem
        have h2 := (managerHas_iff m ds.id).2 hmem
        rw [hdup] at h2
        exact Bool.false_ne_true h2
      have hnd' : ((m.sources ++ [ds]).map (fun x => x.id)).Nodup := by
        rw [List.map_append, List.nodup_append]
        refine ⟨hnd, by simp, ?_⟩
        intro a ha hb
        simp only [List.map_cons, List.map_nil, List.mem_singleton] at hb
        subst hb
        exact hnotin ha
      cases hnp : noPrimary { m with sources := m.sources ++ [ds] } with
      | true =>
        rw [register_promotes m ds hdup hnp]
        refine ⟨hnd', ?_⟩
        intro p hp
        obtain rfl : ds.id = p := Option.some.inj hp
        rw [List.map_append]
        exact List.mem_append.2 (Or.inr (by simp))
      | false =>
        rw [register_keeps m ds hdup hnp]
        refine ⟨hnd', ?_⟩
        intro p hp
        have := hpr p hp
        rw [List.map_append]
        exact List.mem_append.2 (Or.inl this)
  | unregStep m id _ ih =>
    obtain ⟨hnd, hpr⟩ := ih
    cases hf : m.sources.find? (fun ds => ds.id == id) with
    | none => rw [unregister_missing m id hf]; exact ⟨hnd, hpr⟩
    | some found =>
      have hsub : List.Sublist
          ((m.sources.filter (fun ds => ds.id != id)).map (fun x => x.id))
          (m.sources.map (fun x => x.id)) :=
        List.Sublist.map _ (List.filter_sublist _)
      have hndr := List.Nodup.sublist hsub hnd
      cases hpid : (m.primary == some id) with
      | false =>
        rw [unregister_nonprimary m id found hf hpid]
        refine ⟨hndr, ?_⟩
        intro p hp
        have hpm : m.primary = some p := hp
        have hpne : p ≠ id := by
          intro he
          subst he
          rw [hpm] at hpid
          simp at hpid
        have hpold := hpr p hpm
        rw [List.mem_map] at hpold ⊢
        obtain ⟨src, hsrc, hsid⟩ := hpold
        refine ⟨src, List.mem_filter.2 ⟨hsrc, ?_⟩, hsid⟩
        simp [hsid, hpne]
      | true =>
        cases hrem : (m.sources.filter (fun ds => ds.id != id)).head? with
        | none =>
          rw [unregister_primary_none m id found hf hpid hrem]
          exact ⟨hndr, fun p hp => Option.noConfusion hp⟩
        | some f =>
          cases hfe : (f.id == "") with
          | true =>
            rw [unregister_primary_emptyId m id found f hf hpid hrem hfe]
            exact ⟨hndr, fun p hp => Option.noConfusion hp⟩
          | false =>
            rw [unregister_primary_promotes m id found f hf hpid hrem hfe]
            refine ⟨hndr, ?_⟩
            intro p hp
            obtain rfl : f.id = p := Option.some.inj hp
            rw [List.mem_map]
            exact ⟨f, List.mem_of_mem_head? hrem, rfl⟩
  | setPrimaryStep m id _ ih =>
    obtain ⟨hnd, hpr⟩ := ih
    cases hhas : managerHas m id with
    | true =>
      rw [setPrimary_found m id hhas]
      refine ⟨hnd, ?_⟩
      intro p hp
      obtain rfl : id = p := Option.some.inj hp
      exact (managerHas_iff m id).1 hhas
    | false =>
      rw [setPrimary_missing m id hhas]
      exact ⟨hnd, hpr⟩
  | clearStep m _ =>
    exact ⟨by simp [managerClear], fun p hp => Option.noConfusion hp⟩

/-- C6 (amended): in every reachable manager state the registered ids are
unique; registering a duplicate id fails without mutating registry or
primary; a register into an empty registry makes the new source primary;
unregistering the current primary promotes the first remaining source —
unless none remain, or the first remaining source's id is the empty string
(which the `if (firstId)` truthiness check treats as absent), in which case
no primary is set; in particular register a, register b, unregister a
leaves b primary. -/
theorem c6_manager_registry :
    (∀ m : ManagerState, Reachable m → (m.sources.map (fun ds => ds.id)).Nodup) ∧
    (∀ (m : ManagerState) (ds : ManagedSource), managerHas m ds.id = true →
      register m ds =
        (m, Except.error ("Data source with id " ++ ds.id ++ " is already registered"))) ∧
    (∀ (m : ManagerState) (ds : ManagedSource), Reachable m → m.sources = [] →
      (register m ds).1 = { sources := [ds], primary := some ds.id }) ∧
    (∀ (m : ManagerState) (id : String) (found : ManagedSource),
      m.sources.find? (fun ds => ds.id == id) = some found →
      m.primary = some id →
      (m.sources.filter (fun ds => ds.id != id) = [] →
        (unregister m id).1 = { sources := [], primary := none }) ∧
      (∀ (f : ManagedSource) (rest : List ManagedSource),
        m.sources.filter (fun ds => ds.id != id) = f :: rest →
        (f.id == "") = false →
        (unregister m id).1 = { sources := f :: rest, primary := some f.id }) ∧
      (∀ (f : ManagedSource) (rest : List ManagedSource),
        m.sources.filter (fun ds => ds.id != id) = f :: rest →
        (f.id == "") = true →
        (unregister m id).1 = { sources := f :: rest, primary := none })) ∧
    (unregister (register (register managerInit srcA).1 srcB).1 "a").1.primary =
      some "b" := by
  refine ⟨fun m h => (reachable_managerInv m h).1, register_dup, ?_, ?_, by rfl⟩
  · intro m ds hreach hempty
    obtain ⟨srcs, prim⟩ := m
    simp only at hempty
    subst hempty
    have hprim : prim = none := by
      cases hp : prim with
      | none => rfl
      | some p =>
        have := (reachable_managerInv _ hreach).2 p (by simp [hp])
        simp at this
    subst hprim
    have hdup : managerHas (⟨[], none⟩ : ManagerState) ds.id = false := by
      simp [managerHas]
    have hnp : noPrimary (⟨[ds], none⟩ : ManagerState) = true := by
      simp [noPrimary]
    rw [register_promotes ⟨[], none⟩ ds hdup hnp]
    rfl
  · intro m id found hf hp
    have hpb : (m.primary == some id) = true := by simp [hp]
    refine ⟨?_, ?_, ?_⟩
    · intro hfil
      have hr : (m.sources.filter (fun ds => ds.id != id)).head? = none := by
        rw [hfil]; rfl
      rw [unregister_primary_none m id found hf hpb hr, hfil]
    · intro f rest hfil hfe
      have hr : (m.sources.filter (fun ds => ds.id != id)).head? = some f := by
        rw [hfil]; rfl
      rw [unregister_primary_promotes m id found f hf hpb hr hfe, hfil]
    · intro f rest hfil hfe
      have hr : (m.sources.filter (fun ds => ds.id != id)).head? = some f := by
        rw [hfil]; rfl
      rw [unregister_primary_emptyId m id found f hf hpb hr hfe, hfil]

/-- Counterexample for C6 as stated: after register "a", register "" and
unregister "a" (the primary), the registry still holds the source with the
empty-string id but no source was promoted — the claim's promotion
disjunction fails. -/
theorem c6_manager_registry_cex :
    ¬ (((unregister (register (register managerInit srcA).1 srcEmptyId).1
          "a").1.sources = [] ∧
        (unregister (register (register managerInit srcA).1 srcEmptyId).1
          "a").1.primary = none) ∨
      (∃ ds ∈ (unregister (register (register managerInit srcA).1 srcEmptyId).1
          "a").1.sources,
        (unregister (register (register managerInit srcA).1 srcEmptyId).1
          "a").1.primary = some ds.id)) := by
  decide

/-- Witness for C6: the invariant at the initial state, a concrete
duplicate registration, first-register promotion, primary promotion after
unregistering, and the a/b scenario. -/
theorem c6_manager_registry_witness :
    (managerInit.sources.map (fun ds => ds.id)).Nodup ∧
    register { sources := [srcA], primary := some "a" } srcA =
      ({ sources := [srcA], primary := some "a" },
        Except.error ("Data source with id " ++ srcA.id ++ " is already registered")) ∧
    (register managerInit srcA).1 =
      { sources := [srcA], primary := some srcA.id } ∧
    (unregister { sources := [srcA, srcB], primary := some "a" } "a").1 =
      { sources := [srcB], primary := some srcB.id } ∧
    (unregister (register (register managerInit srcA).1 srcB).1 "a").1.primary =
      some "b" := by
  refine ⟨?_, ?_, ?_, ?_, c6_manager_registry.2.2.2.2⟩
  · exact c6_manager_registry.1 managerInit Reachable.init
  · exact c6_manager_registry.2.1 { sources := [srcA], primary := some "a" } srcA rfl
  · exact c6_manager_registry.2.2.1 managerInit srcA Reachable.init rfl
  · exact (c6_manager_registry.2.2.2.1
      { sources := [srcA, srcB], primary := some "a" } "a" srcA rfl rfl).2.1
      srcB [] rfl rfl

/-- The override map of a spread keeps each base entry's key. -/
theorem fst_overrideEntry (b : JsObj) (q : String × JVal) :
    (match jlookup b q.1 with
      | some v => (q.1, v)
      | none => q).1 = q.1 := by
  cases jlookup b q.1 <;> rfl

/-- `hasKey` distributes over append. -/
theorem hasKey_append (x y : JsObj) (k : String) :
    hasKey (x ++ y) k = (hasKey x k || hasKey y k) := by
  simp [hasKey, List.any_append]

/-- The override map of a spread has exactly the base's keys. -/
theorem hasKey_overrideMap (a b : JsObj) (k : String) :
    hasKey (a.map (fun p =>
      match jlookup b p.1 with
      | some v => (p.1, v)
      | none => p)) k = hasKey a k := by
  induction a with
  | nil => rfl
  | cons q a ih =>
    simp only [List.map_cons, hasKey, List.any_cons] at ih ⊢
    rw [fst_overrideEntry b q, ih]

/-- The new-keys part of a spread holds the override keys missing from the
base. -/
theorem hasKey_filterNot (a b : JsObj) (k : String) :
    hasKey (b.filter (fun p => !hasKey a p.1)) k =
      (hasKey b k && !hasKey a k) := by
  induction b with
  | nil => simp [hasKey]
  | cons q b ih =>
    simp only [hasKey, List.any_cons] at ih ⊢
    cases hpred : (List.any a fun p => p.1 == q.1) with
    | true =>
      rw [List.filter_cons_of_neg (by simp [hasKey, hpred]), ih]
      cases hq : (q.1 == k) with
      | true =>
        have : q.1 = k := eq_of_beq hq
        subst this
        rw [hpred]
        simp
      | false => simp
    | false =>
      rw [List.filter_cons_of_pos (by simp [hasKey, hpred])]
      simp only [List.any_cons]
      rw [ih]
      cases hq : (q.1 == k) with
      | true =>
        have : q.1 = k := eq_of_beq hq
        subst this
        rw [hpred]
        simp
      | false => simp

/-- The keys of `{...base, ...override}` are exactly the union of keys. -/
theorem hasKey_spreadUnion (a b : JsObj) (k : String) :
    hasKey (spreadUnion a b) k = (hasKey a k || hasKey b k) := by
  rw [spreadUnion, hasKey_append, hasKey_overrideMap, hasKey_filterNot]
  cases hasKey a k <;> simp

/-- An explicit `k: v` entry keeps each entry's key. -/
theorem fst_setEntry (k' : String) (v : JVal) (p : String × JVal) :
    (if p.1 == k' then (k', v) else p).1 = p.1 := by
  cases h : (p.1 == k') with
  | true => exact (eq_of_beq h).symm
  | false => rfl

/-- Replacing a present key in place does not change the key set. -/
theorem hasKey_mapSet (o : JsObj) (k' : String) (v : JVal) (k : String) :
    hasKey (o.map (fun p => if p.1 == k' then (k', v) else p)) k = hasKey o k := by
  induction o with
  | nil => rfl
  | cons q o ih =>
    simp only [List.map_cons, hasKey, List.any_cons] at ih ⊢
    rw [fst_setEntry k' v q, ih]

/-- `setKey` adds exactly the written key. -/
theorem hasKey_setKey (o : JsObj) (k' : String) (v : JVal) (k : String) :
    hasKey (setKey o k' v) k = (hasKey o k || (k' == k)) := by
  unfold setKey
  cases hpres : hasKey o k' with
  | true =>
    simp only [if_true]
    rw [hasKey_mapSet]
    cases hkk : (k' == k) with
    | true =>
      have : k' = k := eq_of_beq hkk
      subst this
      rw [hpres]
      rfl
    | false => simp
  | false =>
    simp only [Bool.false_eq_true, if_false]
    rw [hasKey_append]
    simp [hasKey]

/-- Looking up a key appended to an object that lacked it. -/
theorem jlookup_append_absent (o : JsObj) (k : String) (v : JVal)
    (h : hasKey o k = false) :
    jlookup (o ++ [(k, v)]) k = some v := by
  induction o with
  | nil => simp [jlookup]
  | cons q o ih =>
    simp only [hasKey, List.any_cons, Bool.or_eq_false_iff] at h
    have hih := ih (by simp [hasKey, h.2])
    simpa [jlookup, List.find?, h.1] using hih

/-- Looking up a present key rewritten in place. -/
theorem jlookup_mapSet_present (o : JsObj) (k : String) (v : JVal)
    (h : hasKey o k = true) :
    jlookup (o.map (fun p => if p.1 == k then (k, v) else p)) k = some v := by
  induction o with
  | nil => simp [hasKey] at h
  | cons q o ih =>
    simp only [hasKey, List.any_cons] at h
    cases hq : (q.1 == k) with
    | true => simp [jlookup, List.find?, hq]
    | false =>
      have h' : hasKey o k = true := by
        rw [hq] at h
        simpa [hasKey] using h
      simpa [jlookup, List.find?, hq] using ih h'

/-- `jlookup` after `setKey` at the written key. -/
theorem jlookup_setKey_self (o : JsObj) (k : String) (v : JVal) :
    jlookup (setKey o k v) k = some v := by
  unfold setKey
  cases hpres : hasKey o k with
  | true =>
    simp only [if_true]
    exact jlookup_mapSet_present o k v hpres
  | false =>
    simp only [Bool.false_eq_true, if_false]
    exact jlookup_append_absent o k v hpres

/-- Appending a different key does not change a lookup. -/
theorem jlookup_appendOne_ne (o : JsObj) (k' : String) (v : JVal) (k : String)
    (h : (k' == k) = false) :
    jlookup (o ++ [(k', v)]) k = jlookup o k := by
  induction o with
  | nil => simp [jlookup, List.find?, h]
  | cons q o ih =>
    cases hq : (q.1 == k) with
    | true => simp [jlookup, List.find?, hq]
    | false => simpa [jlookup, List.find?, hq] using ih

/-- Rewriting a different key in place does not change a lookup. -/
theorem jlookup_mapSet_ne (o : JsObj) (k' : String) (v : JVal) (k : String)
    (h : (k' == k) = false) :
    jlookup (o.map (fun p => if p.1 == k' then (k', v) else p)) k =
      jlookup o k := by
  induction o with
  | nil => rfl
  | cons q o ih =>
    cases hq : (q.1 == k') with
    | true =>
      have hqk : (q.1 == k) = false := by
        rw [eq_of_beq hq]
        exact h
      simpa [jlookup, List.find?, hq, hqk, h] using ih
    | false =>
      cases hqk : (q.1 == k) with
      | true => simp [jlookup, List.find?, hq, hqk]
      | false => simpa [jlookup, List.find?, hq, hqk] using ih

/-- `jlookup` after `setKey` at a different key. -/
theorem jlookup_setKey_ne (o : JsObj) (k' : String) (v : JVal) (k : String)
    (h : (k' == k) = false) :
    jlookup (setKey o k' v) k = jlookup o k := by
  unfold setKey
  cases hpres : hasKey o k' with
  | true =>
    simp only [if_true]
    exact jlookup_mapSet_ne o k' v k h
  | false =>
    simp only [Bool.false_eq_true, if_false]
    exact jlookup_appendOne_ne o k' v k h

/-- The merged configuration's `app` member is the per-section spread. -/
theorem getObjOr_mergeConfig_app (c p : JsObj) :
    getObjOr (mergeConfig c p) "app" =
      spreadUnion (getObjOr c "app") (getObjOr p "app") := by
  have h1 : jlookup (mergeConfig c p) "app" =
      some (JVal.jobj (spreadUnion (getObjOr c "app") (getObjOr p "app"))) := by
    simp only [mergeConfig]
    rw [jlookup_setKey_ne _ "ui" _ "app" (by decide),
      jlookup_setKey_ne _ "security" _ "app" (by decide),
      jlookup_setKey_ne _ "plugins" _ "app" (by decide),
      jlookup_setKey_self]
  simp [getObjOr, h1]

/-- The merged configuration's `security` member is the per-section spread. -/
theorem getObjOr_mergeConfig_security (c p : JsObj) :
    getObjOr (mergeConfig c p) "security" =
      spreadUnion (getObjOr c "security") (getObjOr p "security") := by
  have h1 : jlookup (mergeConfig c p) "security" =
      some (JVal.jobj (spreadUnion (getObjOr c "security")
        (getObjOr p "security"))) := by
    simp only [mergeConfig]
    rw [jlookup_setKey_ne _ "ui" _ "security" (by decide), jlookup_setKey_self]
  simp [getObjOr, h1]

/-- The merged configuration's `ui` member is the per-section spread. -/
theorem getObjOr_mergeConfig_ui (c p : JsObj) :
    getObjOr (mergeConfig c p) "ui" =
      spreadUnion (getObjOr c "ui") (getObjOr p "ui") := by
  have h1 : jlookup (mergeConfig c p) "ui" =
      some (JVal.jobj (spreadUnion (getObjOr c "ui") (getObjOr p "ui"))) := by
    simp only [mergeConfig]
    rw [jlookup_setKey_self]
  simp [getObjOr, h1]

/-- The merged configuration's `plugins.registry` member is the nested
per-section spread. -/
theorem getObjOr_mergeConfig_registry (c p : JsObj) :
    getObjOr (getObjOr (mergeConfig c p) "plugins") "registry" =
      spreadUnion (getObjOr (getObjOr c "plugins") "registry")
        (getObjOr (getObjOr p "plugins") "registry") := by
  have h1 : jlookup (mergeConfig c p) "plugins" =
      some (JVal.jobj (setKey
        (spreadUnion (getObjOr c "plugins") (getObjOr p "plugins"))
        "registry"
        (JVal.jobj (spreadUnion (getObjOr (getObjOr c "plugins") "registry")
          (getObjOr (getObjOr p "plugins") "registry"))))) := by
    simp only [mergeConfig]
    rw [jlookup_setKey_ne _ "ui" _ "plugins" (by decide),
      jlookup_setKey_ne _ "security" _ "plugins" (by decide),
      jlookup_setKey_self]
  simp [getObjOr, h1, jlookup_setKey_self]

/-- Keys of the merged configuration at top level. -/
theorem hasKey_mergeConfig (c p : JsObj) (k : String) :
    hasKey (mergeConfig c p) k =
      (((((hasKey c k || hasKey p k) || ("app" == k)) || ("plugins" == k)) ||
        ("security" == k)) || ("ui" == k)) := by
  simp only [mergeConfig]
  rw [hasKey_setKey, hasKey_setKey, hasKey_setKey, hasKey_setKey,
    hasKey_spreadUnion]

/-- C8: constructing the configuration store over a partial yields the
default configuration with the partial shallow-unioned per documented
section (`app`, `security`, `ui`, `plugins.registry`), dropping no key
present only in the default or only in the partial at those levels or at
top level — in particular `{app: {debug: true}}` keeps the default
`app.name` while overriding `app.debug`. -/
theorem c8_config_merge :
    configInit none = createDefaultConfig ∧
    (∀ p : JsObj,
      getObjOr (configInit (some p)) "app" =
        spreadUnion (getObjOr createDefaultConfig "app") (getObjOr p "app") ∧
      getObjOr (configInit (some p)) "security" =
        spreadUnion (getObjOr createDefaultConfig "security")
          (getObjOr p "security") ∧
      getObjOr (configInit (some p)) "ui" =
        spreadUnion (getObjOr createDefaultConfig "ui") (getObjOr p "ui") ∧
      getObjOr (getObjOr (configInit (some p)) "plugins") "registry" =
        spreadUnion (getObjOr (getObjOr createDefaultConfig "plugins") "registry")
          (getObjOr (getObjOr p "plugins") "registry")) ∧
    (∀ (p : JsObj) (k : String),
      (hasKey (getObjOr createDefaultConfig "app") k ||
        hasKey (getObjOr p "app") k) = true →
      hasKey (getObjOr (configInit (some p)) "app") k = true) ∧
    (∀ (p : JsObj) (k : String),
      (hasKey createDefaultConfig k || hasKey p k) = true →
      hasKey (configInit (some p)) k = true) ∧
    jlookup (getObjOr (configInit (some partialDebug)) "app") "name" =
      some (JVal.jstr "Nexus Admin") ∧
    jlookup (getObjOr (configInit (some partialDebug)) "app") "debug" =
      some (JVal.jbool true) := by
  refine ⟨rfl, ?_, ?_, ?_, by rfl, by rfl⟩
  · intro p
    exact ⟨getObjOr_mergeConfig_app createDefaultConfig p,
      getObjOr_mergeConfig_security createDefaultConfig p,
      getObjOr_mergeConfig_ui createDefaultConfig p,
      getObjOr_mergeConfig_registry createDefaultConfig p⟩
  · intro p k h
    show hasKey (getObjOr (mergeConfig createDefaultConfig p) "app") k = true
    rw [getObjOr_mergeConfig_app, hasKey_spreadUnion]
    exact h
  · intro p k h
    show hasKey (mergeConfig createDefaultConfig p) k = true
    rw [hasKey_mergeConfig, h]
    simp

/-- Witness for C8: a key present only in the partial's `app` section and a
top-level key present only in the partial both survive the merge; the
`app` section of the `{app:{debug:true}}` merge is exactly the documented
spread. -/
theorem c8_config_merge_witness :
    hasKey (getObjOr (configInit
      (some [("app", JVal.jobj [("extra", JVal.jstr "x")])])) "app") "extra" =
      true ∧
    hasKey (configInit (some [("topExtra", JVal.jstr "y")])) "topExtra" = true ∧
    getObjOr (configInit (some partialDebug)) "app" =
      spreadUnion (getObjOr createDefaultConfig "app")
        (getObjOr partialDebug "app") := by
  refine ⟨?_, ?_, (c8_config_merge.2.1 partialDebug).1⟩
  · exact c8_config_merge.2.2.1 [("app", JVal.jobj [("extra", JVal.jstr "x")])]
      "extra" (by rfl)
  · exact c8_config_merge.2.2.2.1 [("topExtra", JVal.jstr "y")] "topExtra"
      (by rfl)

/-- Membership in the field-name `Set` after one insertion. -/
theorem mem_insertName (acc : List String) (k k' : String) :
    k ∈ insertName acc k' ↔ k ∈ acc ∨ k = k' := by
  unfold insertName
  cases h : acc.contains k' with
  | true =>
    simp only [if_pos rfl]
    constructor
    · exact Or.inl
    · rintro (hk | rfl)
      · exact hk
      · exact List.mem_of_elem_eq_true h
  | false =>
    simp only [Bool.false_eq_true, if_false, List.mem_append,
      List.mem_singleton]

/-- Membership after folding a key list into the field-name `Set`. -/
theorem mem_foldl_insertName (k : String) :
    ∀ (ks acc : List String), k ∈ ks.foldl insertName acc ↔ k ∈ acc ∨ k ∈ ks := by
  intro ks
  induction ks with
  | nil => simp
  | cons k' ks ih =>
    intro acc
    rw [List.foldl_cons, ih, mem_insertName]
    simp only [List.mem_cons]
    tauto

/-- `collectFieldNames` holds exactly the keys occurring in some row. -/
theorem mem_collectFieldNames (rows : List Row) (k : String) :
    k ∈ collectFieldNames rows ↔ ∃ r ∈ rows, k ∈ r.map (fun p => p.1) := by
  have hgen : ∀ (rs : List Row) (acc : List String),
      k ∈ rs.foldl (fun acc r => (r.map (fun p => p.1)).foldl insertName acc) acc ↔
        k ∈ acc ∨ ∃ r ∈ rs, k ∈ r.map (fun p => p.1) := by
    intro rs
    induction rs with
    | nil => simp
    | cons r rs ih =>
      intro acc
      rw [List.foldl_cons, ih, mem_foldl_insertName]
      simp only [List.mem_cons]
      constructor
      · rintro ((h | h) | ⟨r', hr', hk⟩)
        · exact Or.inl h
        · exact Or.inr ⟨r, Or.inl rfl, h⟩
        · exact Or.inr ⟨r', Or.inr hr', hk⟩
      · rintro (h | ⟨r', hr' | hr', hk⟩)
        · exact Or.inl (Or.inl h)
        · subst hr'
          exact Or.inl (Or.inr hk)
        · exact Or.inr ⟨r', hr', hk⟩
  have := hgen rows []
  simpa [collectFieldNames] using this

/-- One step of the `Set` dedup keeps prior members. -/
theorem dedupStep_mem (acc : List Value) (v x : Value) (h : x ∈ acc) :
    x ∈ (if acc.contains v then acc else acc ++ [v]) := by
  split
  · exact h
  · exact List.mem_append.2 (Or.inl h)

/-- One step of the `Set` dedup contains the inserted element. -/
theorem dedupStep_self_mem (acc : List Value) (v : Value) :
    v ∈ (if acc.contains v then acc else acc ++ [v]) := by
  cases h : acc.contains v with
  | true =>
    simp only [if_pos rfl]
    exact List.mem_of_elem_eq_true h
  | false => simp

/-- One step of the `Set` dedup grows the set by at most one. -/
theorem dedupStep_length (acc : List Value) (v : Value) :
    (if acc.contains v then acc else acc ++ [v]).length ≤ acc.length + 1 := by
  split
  · omega
  · simp

/-- Folding a duplicate-free suffix into a compatible `Set` appends it. -/
theorem dedupFold_append_nodup :
    ∀ (vs acc : List Value), (acc ++ vs).Nodup →
      vs.foldl (fun acc v => if acc.contains v then acc else acc ++ [v]) acc =
        acc ++ vs := by
  intro vs
  induction vs with
  | nil => intro acc _; simp
  | cons v vs ih =>
    intro acc h
    have hv : v ∉ acc := by
      rw [List.nodup_append] at h
      intro hc
      exact h.2.2 hc (by simp)
    have hcf : acc.contains v = false := by
      cases hc : acc.contains v with
      | true => exact absurd (List.mem_of_elem_eq_true hc) hv
      | false => rfl
    rw [List.foldl_cons]
    simp only [hcf, Bool.false_eq_true, if_false]
    have h' : ((acc ++ [v]) ++ vs).Nodup := by
      rw [List.append_assoc]
      exact h
    rw [ih (acc ++ [v]) h', List.append_assoc]
    rfl

/-- The `Set` dedup fold never exceeds input plus accumulator length. -/
theorem dedupFold_length_le :
    ∀ (vs acc : List Value),
      (vs.foldl (fun acc v => if acc.contains v then acc else acc ++ [v])
        acc).length ≤ acc.length + vs.length := by
  intro vs
  induction vs with
  | nil => intro acc; simp
  | cons v vs ih =>
    intro acc
    rw [List.foldl_cons]
    have h1 := ih (if acc.contains v then acc else acc ++ [v])
    have h2 := dedupStep_length acc v
    simp only [List.length_cons]
    omega

/-- Feeding the fold an element already in the `Set` loses one slot. -/
theorem dedupFold_mem_strict :
    ∀ (vs acc : List Value) (x : Value), x ∈ acc → x ∈ vs →
      (vs.foldl (fun acc v => if acc.contains v then acc else acc ++ [v])
        acc).length < acc.length + vs.length := by
  intro vs
  induction vs with
  | nil => intro acc x _ hx; simp at hx
  | cons v vs ih =>
    intro acc x hacc hx
    rw [List.foldl_cons]
    simp only [List.length_cons]
    rcases List.mem_cons.1 hx with rfl | hx'
    · have hcf : acc.contains x = true := List.elem_eq_true_of_mem hacc
      rw [if_pos hcf]
      have := dedupFold_length_le vs acc
      omega
    · have h1 := ih (if acc.contains v then acc else acc ++ [v]) x
        (dedupStep_mem acc v x hacc) hx'
      have h2 := dedupStep_length acc v
      omega

/-- A duplicated input loses at least one slot in the `Set` dedup fold. -/
theorem dedupFold_not_nodup :
    ∀ (vs acc : List Value), ¬vs.Nodup →
      (vs.foldl (fun acc v => if acc.contains v then acc else acc ++ [v])
        acc).length < acc.length + vs.length := by
  intro vs
  induction vs with
  | nil => intro acc h; exact absurd List.nodup_nil h
  | cons v vs ih =>
    intro acc h
    rw [List.foldl_cons]
    simp only [List.length_cons]
    by_cases hv : v ∈ vs
    · have h1 := dedupFold_mem_strict vs
        (if acc.contains v then acc else acc ++ [v]) v
        (dedupStep_self_mem acc v) hv
      have h2 := dedupStep_length acc v
      omega
    · have hvs : ¬vs.Nodup := by
        intro hn
        exact h (List.nodup_cons.2 ⟨hv, hn⟩)
      have h1 := ih (if acc.contains v then acc else acc ++ [v]) hvs
      have h2 := dedupStep_length acc v
      omega

/-- `new Set(values).size === values.length` holds exactly for
duplicate-free value lists. -/
theorem jsDedup_length_iff (vs : List Value) :
    ((jsDedup vs).length == vs.length) = true ↔ vs.Nodup := by
  constructor
  · intro h
    by_contra hn
    have hlt := dedupFold_not_nodup vs [] hn
    have heq : (jsDedup vs).length = vs.length := eq_of_beq h
    simp only [jsDedup] at heq
    simp only [List.length_nil] at hlt
    omega
  · intro h
    have := dedupFold_append_nodup vs [] (by simpa using h)
    simp only [jsDedup]
    rw [this]
    simp

/-- The analyzed field keeps its field name in both branches. -/
theorem analyzeField_name (rows : List Row) (nm : String) :
    (analyzeField rows nm).name = nm := by
  simp only [analyzeField]
  split <;> rfl

/-- The schema's field names are the collected names in order. -/
theorem fields_map_name (rows : List Row) (names : List String) :
    (names.map (analyzeField rows)).map (fun f => f.name) = names := by
  rw [List.map_map]
  have h : (fun f : FieldSchema => f.name) ∘ analyzeField rows = id := by
    funext nm
    exact analyzeField_name rows nm
  rw [h, List.map_id]

/-- A field with no non-null sample is null/undefined in every row. -/
theorem nonNullValues_nil_forall (rows : List Row) (nm : String)
    (h : nonNullValues rows nm = []) :
    ∀ r ∈ rows, isNullish (getField r nm) = true := by
  intro r hr
  simp only [nonNullValues] at h
  rw [List.filterMap_eq_nil_iff] at h
  have hnone := h (getField r nm) (List.mem_map.2 ⟨r, hr, rfl⟩)
  by_contra hc
  have hn : isNullish (getField r nm) = false := by
    cases hx : isNullish (getField r nm) with
    | true => exact absurd hx hc
    | false => rfl
  rw [hn] at hnone
  simp only [Bool.false_eq_true, if_false] at hnone
  rw [hnone] at hn
  simp [isNullish] at hn

/-- C9: `inferTableSchema` fails on an empty row list; otherwise it unions
field names across all rows, infers each field's type from its first
non-null sample, marks it nullable iff some row holds null/undefined for
it, marks it unique iff its non-null values are distinct, and selects the
primary key as the first auto-increment field, else the first unique field
whose name contains "id", else the first unique non-nullable field, else
none; on `[{id:1,email:"a@x.com"}, {id:2,email:"b@x.com"}]` it picks `id`
as primary key and types `email` as `email`. -/
theorem c9_schema_inference :
    (∀ n : String,
      inferTableSchema n [] = Except.error "Cannot infer schema from empty data") ∧
    (∀ (n : String) (rows : List Row) (s : TableSchema),
      inferTableSchema n rows = Except.ok s →
      s.fields.map (fun f => f.name) = collectFieldNames rows ∧
      (∀ k : String,
        k ∈ collectFieldNames rows ↔ ∃ r ∈ rows, k ∈ r.map (fun p => p.1)) ∧
      (∀ f ∈ s.fields,
        (f.nullable = true ↔ ∃ r ∈ rows, isNullish (getField r f.name) = true) ∧
        (∀ (v : Value) (vs : List Value), nonNullValues rows f.name = v :: vs →
          f.type = inferFieldType v ∧
          (f.unique = true ↔ (nonNullValues rows f.name).Nodup))) ∧
      s.primaryKey = (match selectPrimaryKey s.fields with
        | some k => [k]
        | none => [])) ∧
    (∀ fields : List FieldSchema,
      (∀ f0, fields.find? (fun f => f.autoIncrement) = some f0 →
        selectPrimaryKey fields = some f0.name) ∧
      (fields.find? (fun f => f.autoIncrement) = none →
        (∀ f0, fields.find? (fun f => jsIncludes (jsToLower f.name) "id" && f.unique) =
            some f0 →
          selectPrimaryKey fields = some f0.name) ∧
        (fields.find? (fun f => jsIncludes (jsToLower f.name) "id" && f.unique) = none →
          (∀ f0, fields.find? (fun f => f.unique && !f.nullable) = some f0 →
            selectPrimaryKey fields = some f0.name) ∧
          (fields.find? (fun f => f.unique && !f.nullable) = none →
            selectPrimaryKey fields = none)))) ∧
    (∃ s : TableSchema, inferTableSchema "users" sampleRows = Except.ok s ∧
      s.primaryKey = ["id"] ∧
      ∃ f ∈ s.fields, f.name = "email" ∧ f.type = FieldType.email) := by
  refine ⟨fun n => rfl, ?_, ?_, ?_⟩
  · intro n rows s hok
    cases hlen : (rows.length == 0) with
    | true => simp [inferTableSchema, hlen] at hok
    | false =>
      simp only [inferTableSchema, hlen, Bool.false_eq_true, if_false] at hok
      injection hok with hs
      subst hs
      refine ⟨fields_map_name rows _, mem_collectFieldNames rows, ?_, rfl⟩
      intro f hf
      obtain ⟨nm, hnm, rfl⟩ := List.mem_map.1 hf
      have hname := analyzeField_name rows nm
      rw [hname]
      cases hvals : nonNullValues rows nm with
      | nil =>
        constructor
        · simp only [analyzeField, hvals]
          constructor
          · intro _
            cases rows with
            | nil => simp at hlen
            | cons r0 rest =>
              exact ⟨r0, by simp,
                nonNullValues_nil_forall _ nm hvals r0 (by simp)⟩
          · intro _
            trivial
        · intro v vs hcons
          exact absurd hcons (by simp)
      | cons v vs =>
        constructor
        · simp only [analyzeField, hvals]
          exact List.any_eq_true
        · intro v' vs' hcons
          injection hcons with hv hvs
          subst hv
          subst hvs
          simp only [analyzeField, hvals]
          exact ⟨trivial, jsDedup_length_iff _⟩
  · intro fields
    refine ⟨?_, ?_⟩
    · intro f0 h0
      simp [selectPrimaryKey, h0]
    · intro h0
      refine ⟨?_, ?_⟩
      · intro f0 h1
        simp [selectPrimaryKey, h0, h1]
      · intro h1
        refine ⟨?_, ?_⟩
        · intro f0 h2
          simp [selectPrimaryKey, h0, h1, h2]
        · intro h2
          simp [selectPrimaryKey, h0, h1, h2]
  · refine ⟨_, rfl, by decide, by decide⟩

/-- Witness for C9: the empty-input failure, the field-name union and a
primary-key selection at concrete inputs, and the spec's two-row example. -/
theorem c9_schema_inference_witness :
    inferTableSchema "nope" [] =
      Except.error "Cannot infer schema from empty data" ∧
    ("email" ∈ collectFieldNames sampleRows ↔
      ∃ r ∈ sampleRows, "email" ∈ r.map (fun p => p.1)) ∧
    selectPrimaryKey [idNumField] = some "id" ∧
    (∃ s : TableSchema, inferTableSchema "users" sampleRows = Except.ok s ∧
      s.primaryKey = ["id"] ∧
      ∃ f ∈ s.fields, f.name = "email" ∧ f.type = FieldType.email) := by
  refine ⟨c9_schema_inference.1 "nope", ?_, ?_, c9_schema_inference.2.2.2⟩
  · exact (c9_schema_inference.2.1 "users" sampleRows _ rfl).2.1 "email"
  · exact (c9_schema_inference.2.2.1 [idNumField]).1 _ rfl

/-- Emitting on an empty bus does nothing. -/
theorem emitGo_empty (env : Nat → σ → σ × Bool) (fuel : Nat) (e : String)
    (s : σ) : emitGo env fuel e [] s = ([], s) := by
  cases fuel with
  | zero => simp [emitGo]
  | succ n => simp [emitGo, runSnap, busHandlers]

/-- Sequential emits on an empty bus do nothing. -/
theorem emitSeq_empty (env : Nat → σ → σ × Bool) (fuel : Nat) (e : String)
    (k : Nat) (s : σ) : emitSeq env fuel e k [] s = ([], s) := by
  induction k generalizing s with
  | zero => rfl
  | succ k ih => simp [emitSeq, emitGo_empty, ih]

/-- The bus after a single `once` registration on a fresh bus. -/
theorem busOnce_empty (e : String) (hid : Nat) :
    busOnce [] e hid = [(e, [⟨EntryKind.onceWrap, hid⟩])] := by
  simp [busOnce, busOn, busSet, busHandlers, addEntry]

/-- Emitting to a lone `once` wrapper whose handler body does not re-emit:
the body runs, then the wrapper unsubscribes itself, emptying the bus. -/
theorem emitGo_once_plain (env : Nat → σ → σ × Bool) (fuel : Nat) (e : String)
    (hid : Nat) (s s' : σ) (h : env hid s = (s', false)) :
    emitGo env (Nat.succ fuel) e [(e, [⟨EntryKind.onceWrap, hid⟩])] s =
      ([], s') := by
  simp [emitGo, runSnap, busHandlers, busOff, busSet, busDelete, h]

/-- Emitting to a lone `once` wrapper whose handler body synchronously
re-emits the same event on this invocation: because the source unsubscribes
only after the body returns, the nested emit still sees the wrapper and
runs the handler body a second time. -/
theorem emitGo_once_reemit (env : Nat → σ → σ × Bool) (fuel : Nat)
    (e : String) (hid : Nat) (s s1 s2 : σ)
    (h1 : env hid s = (s1, true)) (h2 : env hid s1 = (s2, false)) :
    emitGo env (Nat.succ (Nat.succ fuel)) e
      [(e, [⟨EntryKind.onceWrap, hid⟩])] s = ([], s2) := by
  have hnested := emitGo_once_plain env fuel e hid s1 s2 h2
  simp [emitGo, runSnap, busHandlers, busOff, busSet, busDelete, h1, hnested]

/-- C7 (amended): a handler subscribed via `once` fires exactly once across
any number of sequential emits of the event when its body does not re-emit
that event; but the wrapper unsubscribes only *after* the handler body
returns, so a handler that synchronously re-emits the same event from
inside its body is invoked again by the nested emit. -/
theorem c7_once_fires_once :
    (∀ (e : String) (hid : Nat) (k : Nat),
      emitSeq countEnv 2 e (k + 1) (busOnce [] e hid) 0 = ([], 1)) ∧
    (∀ (e : String) (hid : Nat),
      emitGo reemitOnceEnv 5 e (busOnce [] e hid) 0 = ([], 2)) := by
  constructor
  · intro e hid k
    rw [busOnce_empty]
    have h1 : emitGo countEnv 2 e [(e, [⟨EntryKind.onceWrap, hid⟩])] 0 =
        ([], 1) := emitGo_once_plain countEnv 1 e hid 0 1 rfl
    simp [emitSeq, h1, emitSeq_empty]
  · intro e hid
    rw [busOnce_empty]
    exact emitGo_once_reemit reemitOnceEnv 3 e hid 0 1 2 rfl rfl

/-- Counterexample for C7 as stated: a `once` handler that re-emits its own
event from inside its body (on its first invocation only) runs twice, not
at most once — the wrapper is removed only after the body returns. -/
theorem c7_once_fires_once_cex :
    (emitGo reemitOnceEnv 5 "evt" (busOnce [] "evt" 0) 0).2 = 2 ∧
    ¬ (emitGo reemitOnceEnv 5 "evt" (busOnce [] "evt" 0) 0).2 ≤ 1 := by
  have h : emitGo reemitOnceEnv 5 "evt" (busOnce [] "evt" 0) 0 = ([], 2) := by
    rw [busOnce_empty]
    exact emitGo_once_reemit reemitOnceEnv 3 "evt" 0 0 1 2 rfl rfl
  rw [h]
  exact ⟨rfl, by omega⟩

/-- Adding an entry makes it present. -/
theorem addEntry_contains (l : List Entry) (x : Entry) :
    (addEntry l x).contains x = true := by
  unfold addEntry
  cases h : l.contains x with
  | true => simpa [h] using h
  | false => simp

/-- Adding a present entry is a no-op (`Set.add` semantics). -/
theorem addEntry_idem (l : List Entry) (x : Entry) :
    addEntry (addEntry l x) x = addEntry l x := by
  show (if (addEntry l x).contains x then addEntry l x
    else addEntry l x ++ [x]) = addEntry l x
  rw [addEntry_contains]
  simp

/-- Appending a new event key and reading it back. -/
theorem busHandlers_append_new (b : Bus) (e : String) (l : List Entry)
    (h : b.any (fun p => p.1 == e) = false) :
    busHandlers (b ++ [(e, l)]) e = some l := by
  induction b with
  | nil => simp [busHandlers]
  | cons p b ih =>
    simp only [List.any_cons, Bool.or_eq_false_iff] at h
    have hih := ih h.2
    simpa [busHandlers, List.find?, h.1] using hih

/-- Rewriting a present event key in place and reading it back. -/
theorem busHandlers_map_set (b : Bus) (e : String) (l : List Entry)
    (h : b.any (fun p => p.1 == e) = true) :
    busHandlers (b.map (fun p => if p.1 == e then (e, l) else p)) e = some l := by
  induction b with
  | nil => simp at h
  | cons p b ih =>
    simp only [List.any_cons] at h
    cases hp : (p.1 == e) with
    | true => simp [busHandlers, List.find?, hp]
    | false =>
      have h' : b.any (fun q => q.1 == e) = true := by
        rw [hp] at h
        simpa using h
      simpa [busHandlers, List.find?, hp] using ih h'

/-- Reading back the handler list just written for an event. -/
theorem busHandlers_busSet (b : Bus) (e : String) (l : List Entry) :
    busHandlers (busSet b e l) e = some l := by
  unfold busSet
  cases hany : b.any (fun p => p.1 == e) with
  | true =>
    simp only [if_true]
    exact busHandlers_map_set b e l hany
  | false =>
    simp only [Bool.false_eq_true, if_false]
    exact busHandlers_append_new b e l hany

/-- Rewriting an entry for `e` keeps its key's comparison with `e`. -/
theorem setEntry_key_beq (e : String) (l : List Entry)
    (p : String × List Entry) :
    ((if p.1 == e then (e, l) else p).1 == e) = (p.1 == e) := by
  cases hp : (p.1 == e) with
  | true => simp [hp]
  | false => simp [hp]

/-- The in-place event rewrite preserves the key test. -/
theorem any_key_mapSet (b : Bus) (e : String) (l : List Entry) :
    ((b.map (fun p => if p.1 == e then (e, l) else p)).any
      (fun p => p.1 == e)) = b.any (fun p => p.1 == e) := by
  induction b with
  | nil => rfl
  | cons p b ih =>
    simp only [List.map_cons, List.any_cons]
    rw [setEntry_key_beq, ih]

/-- Two successive in-place rewrites keep only the second. -/
theorem setEntry_setEntry (e : String) (l l' : List Entry)
    (p : String × List Entry) :
    (fun q => if q.1 == e then (e, l') else q)
      ((fun q => if q.1 == e then (e, l) else q) p) =
      (if p.1 == e then (e, l') else p) := by
  cases hp : (p.1 == e) with
  | true => simp [hp]
  | false => simp [hp]

/-- Rewriting an absent key in place changes nothing. -/
theorem map_set_id_of_no_key (b : Bus) (e : String) (l : List Entry)
    (h : b.any (fun p => p.1 == e) = false) :
    b.map (fun p => if p.1 == e then (e, l) else p) = b := by
  induction b with
  | nil => rfl
  | cons p b ih =>
    simp only [List.any_cons, Bool.or_eq_false_iff] at h
    simp only [List.map_cons, h.1, Bool.false_eq_true, if_false]
    rw [ih h.2]

/-- Writing an event's handler list twice keeps only the last write. -/
theorem busSet_busSet (b : Bus) (e : String) (l l' : List Entry) :
    busSet (busSet b e l) e l' = busSet b e l' := by
  cases hany : b.any (fun p => p.1 == e) with
  | true =>
    have h1 : busSet b e l = b.map (fun p => if p.1 == e then (e, l) else p) := by
      simp [busSet, hany]
    have h2 : busSet b e l' = b.map (fun p => if p.1 == e then (e, l') else p) := by
      simp [busSet, hany]
    have hany2 : ((b.map (fun p => if p.1 == e then (e, l) else p)).any
        (fun p => p.1 == e)) = true := by
      rw [any_key_mapSet]
      exact hany
    have h3 : busSet (b.map (fun p => if p.1 == e then (e, l) else p)) e l' =
        (b.map (fun p => if p.1 == e then (e, l) else p)).map
          (fun p => if p.1 == e then (e, l') else p) := by
      unfold busSet
      rw [hany2, if_pos rfl]
    rw [h1, h3, List.map_map, h2]
    exact List.map_congr_left (fun p _ => setEntry_setEntry e l l' p)
  | false =>
    have h1 : busSet b e l = b ++ [(e, l)] := by
      simp [busSet, hany]
    have h2 : busSet b e l' = b ++ [(e, l')] := by
      simp [busSet, hany]
    have hany2 : ((b ++ [(e, l)]).any (fun p => p.1 == e)) = true := by
      simp [List.any_append]
    have h3 : busSet (b ++ [(e, l)]) e l' =
        (b ++ [(e, l)]).map (fun p => if p.1 == e then (e, l') else p) := by
      unfold busSet
      rw [hany2, if_pos rfl]
    rw [h1, h3, List.map_append, h2]
    congr 1
    · exact map_set_id_of_no_key b e l' hany
    · simp

/-- Subscribing the same handler to the same event twice stores it once. -/
theorem busOn_idem (b : Bus) (e : String) (x : Entry) :
    busOn (busOn b e x) e x = busOn b e x := by
  unfold busOn
  rw [busHandlers_busSet]
  simp only [Option.getD_some]
  rw [addEntry_idem, busSet_busSet]

/-- The bus after a single `on` registration on a fresh bus. -/
theorem busOn_empty (e : String) (x : Entry) :
    busOn [] e x = [(e, [x])] := by
  simp [busOn, busSet, busHandlers, addEntry]

/-- Emitting to a lone plain handler runs it and leaves it subscribed. -/
theorem emitGo_plain_noreemit (env : Nat → σ → σ × Bool) (fuel : Nat)
    (e : String) (hid : Nat) (s s' : σ) (h : env hid s = (s', false)) :
    emitGo env (Nat.succ fuel) e [(e, [⟨EntryKind.plain, hid⟩])] s =
      ([(e, [⟨EntryKind.plain, hid⟩])], s') := by
  simp [emitGo, runSnap, busHandlers, h]

/-- C10: subscribing the same handler to the same event more than once via
`on` is idempotent (the handler set stores it once), a single emit then
invokes the handler exactly once, and one `off(name, handler)` call — the
body of the unsubscribe closure `on` returns — removes it entirely. -/
theorem c10_on_idempotent :
    (∀ (b : Bus) (e : String) (x : Entry), busOn (busOn b e x) e x = busOn b e x) ∧
    (∀ (e : String) (hid : Nat),
      emitGo countEnv 2 e
        (busOn (busOn [] e ⟨EntryKind.plain, hid⟩) e ⟨EntryKind.plain, hid⟩) 0 =
        ([(e, [⟨EntryKind.plain, hid⟩])], 1)) ∧
    (∀ (e : String) (x : Entry),
      busOff (busOn (busOn [] e x) e x) e (some x) = []) := by
  refine ⟨busOn_idem, ?_, ?_⟩
  · intro e hid
    rw [busOn_idem, busOn_empty]
    exact emitGo_plain_noreemit countEnv 1 e hid 0 1 rfl
  · intro e x
    rw [busOn_idem, busOn_empty]
    simp [busOff, busHandlers, busSet, busDelete]

end Nexus
